import Mathlib

/-!
# LLVM code generator of ark-c: `src/codegen/LLVM/LLVMcodegen.c`

A shallow embedding of the lowering functions and of the build pipeline of
the code generator, and theorems about them.

How the C code is embedded:

* The LLVM C API is an external toolkit.  It is modelled as a recorder: a
  module is the list of the functions and of the globals added to it, a
  builder is an insertion block together with the list of the instructions
  built through it, in the order they were built.  Every `LLVM*` call of the
  source is a definition of the same name below, and records its arguments as
  they are passed, NULL handles included.
* A handle (`LLVMValueRef`, `LLVMTypeRef`) may be NULL.  The C code tests
  handles for NULL (`!func`, `!args[i]`) and returns `false`/`NULL` for
  failure.
* Several C functions reach the end of a non-void function without a `return`.
  The value their caller then reads is indeterminate; it is a parameter of the
  embedding (`Env.indeterminate`), one value per place where it happens.
* Dereferencing a NULL pointer is the fault `Fault.nullDereference`.
* `genError(...)`/`errorMessage(...)` append the message to `errors`.  The
  output of `printf` and of `verboseModeMessage` is not recorded.
* A function or a global is recorded under the name it is added with; what the
  toolkit does with a name that is taken is not modelled.
* The verifier, the bitcode writer, the file system and the processes are
  outside: the requests made to them are recorded as events, and their answers
  are a parameter of the embedding (`Host`).
-/

namespace ArkCodegen

/-! ## Data types named in the switch of `getLLVMType` -/

/-- The data-type tags, as named by the cases of `getLLVMType`. -/
inductive DataType where
  | INT_128_TYPE | UINT_128_TYPE
  | INT_64_TYPE | UINT_64_TYPE
  | INT_32_TYPE | UINT_32_TYPE
  | INT_16_TYPE | UINT_16_TYPE
  | INT_8_TYPE | UINT_8_TYPE
  | FLOAT_128_TYPE | FLOAT_64_TYPE | FLOAT_32_TYPE
  | INT_TYPE | BOOL_TYPE | BYTE_TYPE | CHAR_TYPE | VOID_TYPE
  | UNKNOWN_TYPE
  deriving DecidableEq, Repr

/-! ## The LLVM toolkit, as a recorder -/

/-- An `LLVMTypeRef`: a handle to an IR type, or NULL. -/
inductive LLVMTypeRef where
  | null
  | intType (numBits : Nat)
  | floatType
  | doubleType
  | fp128Type
  | voidType
  | pointerType (elementType : LLVMTypeRef) (addressSpace : Nat)
  | arrayType (elementType : LLVMTypeRef) (elementCount : Nat)
  deriving DecidableEq, Repr

/-- The kinds of type that `LLVMGetTypeKind` tells apart. -/
inductive LLVMTypeKind where
  | LLVMVoidTypeKind | LLVMFloatTypeKind | LLVMDoubleTypeKind | LLVMFP128TypeKind
  | LLVMIntegerTypeKind | LLVMPointerTypeKind | LLVMArrayTypeKind
  deriving DecidableEq, Repr

/-- A non-NULL value handle. -/
inductive LLVMValue where
  /-- The result of `LLVMConstInt(ty, n, signExtend)`. -/
  | constInt (ty : LLVMTypeRef) (n : Int) (signExtend : Bool)
  /-- The result of `LLVMConstReal(ty, n)`. -/
  | constReal (ty : LLVMTypeRef) (n : Int)
  /-- The result of `LLVMConstString(str, length, dontNullTerminate)`. -/
  | constString (str : String) (length : Nat) (dontNullTerminate : Bool)
  /-- The function of that name in the module. -/
  | function (name : String)
  /-- The result of `LLVMGetParam(fn, index)`. -/
  | param (fn : String) (index : Nat)
  /-- The global that was added to the module as its `index`-th global. -/
  | global (index : Nat)
  /-- The result of the `index`-th instruction built. -/
  | instruction (index : Nat)
  /-- A non-NULL type handle that is passed around as an `LLVMValueRef`
  (`genTypeName` returns the result of `getLLVMType`). -/
  | typeHandle (type : LLVMTypeRef)
  deriving DecidableEq, Repr

/-- An `LLVMValueRef`: `none` is NULL (`false`). -/
abbrev LLVMValueRef := Option LLVMValue

/-- The conversion of a type handle returned where an `LLVMValueRef` is
expected: NULL stays NULL. -/
def LLVMValueRef.ofTypeRef : LLVMTypeRef → LLVMValueRef
  | .null => none
  | t => some (.typeHandle t)

inductive LLVMLinkage where
  | LLVMExternalLinkage
  | LLVMInternalLinkage
  deriving DecidableEq, Repr

/-- A function of a module: what `LLVMFunctionType` and `LLVMAddFunction` were
given, the names set on its parameters, and the names of its basic blocks. -/
structure LLVMFunction where
  name : String
  returnType : LLVMTypeRef
  paramTypes : List LLVMTypeRef
  isVarArg : Bool
  linkage : LLVMLinkage
  paramNames : List String
  basicBlocks : List String
  deriving DecidableEq, Repr

/-- A global of a module.  `type` is the handle passed to `LLVMAddGlobal`. -/
structure LLVMGlobal where
  name : String
  type : LLVMValueRef
  linkage : LLVMLinkage
  isGlobalConstant : Bool
  initializer : LLVMValueRef
  deriving DecidableEq, Repr

structure LLVMModule where
  name : String
  functions : List LLVMFunction
  globals : List LLVMGlobal
  deriving DecidableEq, Repr

/-- The `index`-th basic block of the function `fn`. -/
structure LLVMBasicBlockRef where
  fn : String
  index : Nat
  deriving DecidableEq, Repr

inductive LLVMOpcode where
  | LLVMAdd | LLVMFAdd | LLVMSub | LLVMFSub | LLVMMul | LLVMFMul | LLVMUDiv | LLVMFDiv
  deriving DecidableEq, Repr

/-- An instruction, as the arguments of the `LLVMBuild*` call that built it. -/
inductive LLVMInstruction where
  | binary (op : LLVMOpcode) (lhs rhs : LLVMValueRef) (name : String)
  | call (fn : LLVMValueRef) (args : List LLVMValueRef) (name : String)
  | ret (v : LLVMValueRef)
  | alloca (ty : LLVMValueRef) (name : String)
  | store (val ptr : LLVMValueRef)
  deriving DecidableEq, Repr

/-- The builder: its insertion block (none until it is positioned) and every
instruction built through it, each with the block it was inserted in. -/
structure LLVMBuilder where
  insertBlock : Option LLVMBasicBlockRef
  built : List (Option LLVMBasicBlockRef × LLVMInstruction)
  deriving DecidableEq, Repr

def LLVMCreateBuilder : LLVMBuilder :=
  { insertBlock := none, built := [] }

def LLVMModuleCreateWithName (name : String) : LLVMModule :=
  { name := name, functions := [], globals := [] }

def LLVMIntType (numBits : Nat) : LLVMTypeRef := .intType numBits
def LLVMInt1Type : LLVMTypeRef := .intType 1
def LLVMInt8Type : LLVMTypeRef := .intType 8
def LLVMInt16Type : LLVMTypeRef := .intType 16
def LLVMInt32Type : LLVMTypeRef := .intType 32
def LLVMInt64Type : LLVMTypeRef := .intType 64
def LLVMFloatType : LLVMTypeRef := .floatType
def LLVMDoubleType : LLVMTypeRef := .doubleType
def LLVMFP128Type : LLVMTypeRef := .fp128Type
def LLVMVoidType : LLVMTypeRef := .voidType

def LLVMPointerType (elementType : LLVMTypeRef) (addressSpace : Nat) : LLVMTypeRef :=
  .pointerType elementType addressSpace

def LLVMArrayType (elementType : LLVMTypeRef) (elementCount : Nat) : LLVMTypeRef :=
  .arrayType elementType elementCount

/-- The kind of a type; nothing is known of the kind of the NULL handle. -/
def LLVMGetTypeKind : LLVMTypeRef → Option LLVMTypeKind
  | .null => none
  | .intType _ => some .LLVMIntegerTypeKind
  | .floatType => some .LLVMFloatTypeKind
  | .doubleType => some .LLVMDoubleTypeKind
  | .fp128Type => some .LLVMFP128TypeKind
  | .voidType => some .LLVMVoidTypeKind
  | .pointerType _ _ => some .LLVMPointerTypeKind
  | .arrayType _ _ => some .LLVMArrayTypeKind

def LLVMConstInt (ty : LLVMTypeRef) (n : Int) (signExtend : Bool) : LLVMValueRef :=
  some (.constInt ty n signExtend)

def LLVMConstReal (ty : LLVMTypeRef) (n : Int) : LLVMValueRef :=
  some (.constReal ty n)

def LLVMConstString (str : String) (length : Nat) (dontNullTerminate : Bool) : LLVMValueRef :=
  some (.constString str length dontNullTerminate)

/-- The function of module `m` that the handle `fn` refers to. -/
def LLVMModule.getFunction (m : LLVMModule) (fn : LLVMValueRef) : Option LLVMFunction :=
  match fn with
  | some (.function name) => m.functions.find? (fun f => f.name == name)
  | _ => none

def LLVMGetNamedFunction (m : LLVMModule) (name : String) : LLVMValueRef :=
  match m.functions.find? (fun f => f.name == name) with
  | some _ => some (.function name)
  | none => none

def LLVMCountParams (m : LLVMModule) (fn : LLVMValueRef) : Nat :=
  match m.getFunction fn with
  | some f => f.paramTypes.length
  | none => 0

def LLVMGetParam (fn : LLVMValueRef) (index : Nat) : LLVMValueRef :=
  match fn with
  | some (.function name) => some (.param name index)
  | _ => none

/-- The type of a value, for the values that carry one in this model. -/
def LLVMTypeOf (m : LLVMModule) : LLVMValueRef → LLVMTypeRef
  | some (.constInt ty _ _) => ty
  | some (.constReal ty _) => ty
  | some (.param fn index) =>
    match m.getFunction (some (.function fn)) with
    | some f => f.paramTypes.getD index .null
    | none => .null
  | _ => .null

/-- The result of `LLVMFunctionType(returnType, paramTypes, paramCount, isVarArg)`. -/
structure LLVMFunctionTypeRef where
  returnType : LLVMTypeRef
  paramTypes : List LLVMTypeRef
  isVarArg : Bool
  deriving DecidableEq, Repr

def LLVMFunctionType (returnType : LLVMTypeRef) (paramTypes : List LLVMTypeRef)
    (isVarArg : Bool) : LLVMFunctionTypeRef :=
  { returnType := returnType, paramTypes := paramTypes, isVarArg := isVarArg }

def LLVMAddFunction (m : LLVMModule) (name : String) (ty : LLVMFunctionTypeRef) :
    LLVMValueRef × LLVMModule :=
  (some (.function name),
   { m with functions := m.functions ++
      [{ name := name, returnType := ty.returnType, paramTypes := ty.paramTypes,
         isVarArg := ty.isVarArg, linkage := .LLVMExternalLinkage,
         paramNames := ty.paramTypes.map (fun _ => ""), basicBlocks := [] }] })

/-- Apply `g` to the function that the handle `fn` refers to. -/
def LLVMModule.updateFunction (m : LLVMModule) (fn : LLVMValueRef)
    (g : LLVMFunction → LLVMFunction) : LLVMModule :=
  match fn with
  | some (.function name) =>
    { m with functions := m.functions.map (fun f => if f.name == name then g f else f) }
  | _ => m

/-- Apply `g` to the global that the handle `glob` refers to. -/
def LLVMModule.updateGlobal (m : LLVMModule) (glob : LLVMValueRef)
    (g : LLVMGlobal → LLVMGlobal) : LLVMModule :=
  match glob with
  | some (.global index) => { m with globals := m.globals.modify g index }
  | _ => m

def LLVMAddGlobal (m : LLVMModule) (ty : LLVMValueRef) (name : String) :
    LLVMValueRef × LLVMModule :=
  (some (.global m.globals.length),
   { m with globals := m.globals ++
      [{ name := name, type := ty, linkage := .LLVMExternalLinkage,
         isGlobalConstant := false, initializer := none }] })

/-- The call `LLVMSetLinkage(v, linkage)`, on a function or a global. -/
def LLVMSetLinkage (m : LLVMModule) (v : LLVMValueRef) (linkage : LLVMLinkage) : LLVMModule :=
  match v with
  | some (.function _) => m.updateFunction v (fun f => { f with linkage := linkage })
  | some (.global _) => m.updateGlobal v (fun g => { g with linkage := linkage })
  | _ => m

def LLVMSetGlobalConstant (m : LLVMModule) (glob : LLVMValueRef) (isConstant : Bool) :
    LLVMModule :=
  m.updateGlobal glob (fun g => { g with isGlobalConstant := isConstant })

def LLVMSetInitializer (m : LLVMModule) (glob : LLVMValueRef) (constantVal : LLVMValueRef) :
    LLVMModule :=
  m.updateGlobal glob (fun g => { g with initializer := constantVal })

/-- The call `LLVMSetValueName(param, name)`, on a parameter of a function. -/
def LLVMSetValueName (m : LLVMModule) (v : LLVMValueRef) (name : String) : LLVMModule :=
  match v with
  | some (.param fn index) =>
    m.updateFunction (some (.function fn))
      (fun f => { f with paramNames := f.paramNames.set index name })
  | _ => m

def LLVMAppendBasicBlock (m : LLVMModule) (fn : LLVMValueRef) (name : String) :
    Option LLVMBasicBlockRef × LLVMModule :=
  match fn, m.getFunction fn with
  | some (.function fname), some f =>
    (some { fn := fname, index := f.basicBlocks.length },
     m.updateFunction fn (fun f => { f with basicBlocks := f.basicBlocks ++ [name] }))
  | _, _ => (none, m)

def LLVMPositionBuilderAtEnd (b : LLVMBuilder) (block : Option LLVMBasicBlockRef) :
    LLVMBuilder :=
  { b with insertBlock := block }

/-- Every `LLVMBuild*` call: the instruction is recorded with the insertion
block, and the handle of its result is returned. -/
def LLVMBuilder.build (b : LLVMBuilder) (i : LLVMInstruction) : LLVMValueRef × LLVMBuilder :=
  (some (.instruction b.built.length), { b with built := b.built ++ [(b.insertBlock, i)] })

def LLVMBuildAdd (b : LLVMBuilder) (lhs rhs : LLVMValueRef) (name : String) :=
  b.build (.binary .LLVMAdd lhs rhs name)
def LLVMBuildFAdd (b : LLVMBuilder) (lhs rhs : LLVMValueRef) (name : String) :=
  b.build (.binary .LLVMFAdd lhs rhs name)
def LLVMBuildSub (b : LLVMBuilder) (lhs rhs : LLVMValueRef) (name : String) :=
  b.build (.binary .LLVMSub lhs rhs name)
def LLVMBuildFSub (b : LLVMBuilder) (lhs rhs : LLVMValueRef) (name : String) :=
  b.build (.binary .LLVMFSub lhs rhs name)
def LLVMBuildMul (b : LLVMBuilder) (lhs rhs : LLVMValueRef) (name : String) :=
  b.build (.binary .LLVMMul lhs rhs name)
def LLVMBuildFMul (b : LLVMBuilder) (lhs rhs : LLVMValueRef) (name : String) :=
  b.build (.binary .LLVMFMul lhs rhs name)
def LLVMBuildUDiv (b : LLVMBuilder) (lhs rhs : LLVMValueRef) (name : String) :=
  b.build (.binary .LLVMUDiv lhs rhs name)
def LLVMBuildFDiv (b : LLVMBuilder) (lhs rhs : LLVMValueRef) (name : String) :=
  b.build (.binary .LLVMFDiv lhs rhs name)
def LLVMBuildCall (b : LLVMBuilder) (fn : LLVMValueRef) (args : List LLVMValueRef)
    (name : String) :=
  b.build (.call fn args name)
def LLVMBuildRet (b : LLVMBuilder) (v : LLVMValueRef) :=
  b.build (.ret v)
def LLVMBuildAlloca (b : LLVMBuilder) (ty : LLVMValueRef) (name : String) :=
  b.build (.alloca ty name)
def LLVMBuildStore (b : LLVMBuilder) (val ptr : LLVMValueRef) :=
  b.build (.store val ptr)

/-! ## The syntax tree (read-only input, produced by the parser) -/

/-- A type name: the `name` as written and the `dataType` the parser attached
to it (`UNKNOWN_TYPE` when the name is not the name of a built-in type). -/
structure TypeName where
  name : String
  dataType : DataType
  deriving DecidableEq, Repr

mutual
/-- The C struct `Type`: a type name (`typeLit` is NULL, tag `TYPE_NAME_NODE`),
a type literal (`typeLit` is set, tag `TYPE_LIT_NODE`), or neither of them. -/
inductive AstType where
  | typeNameNode (typeName : TypeName)
  | typeLitNode (typeLit : TypeLit)
  | otherNode
/-- The C struct `TypeLit`: a pointer type (tag `POINTER_TYPE_NODE`, with the
type pointed to), or another type literal. -/
inductive TypeLit where
  | pointerTypeNode (type : AstType)
  | otherNode
end

inductive LiteralType where
  | INT_LITERAL_NODE | FLOAT_LITERAL_NODE | STRING_LITERAL_NODE | OTHER_NODE
  deriving DecidableEq, Repr

/-- The C struct `Literal`: the tag, and the pointers `intLit` and `stringLit`
that `genLiteral` reads (`none` is NULL), each with the `value` behind it. -/
structure Literal where
  type : LiteralType
  intLit : Option Int
  stringLit : Option String
  deriving DecidableEq, Repr

mutual
/-- The C struct `Expression`, by its tag `exprType`. -/
inductive Expression where
  | typeNode (type : AstType)
  | literalNode (lit : Literal)
  | binaryExprNode (binary : BinaryExpr)
  | unaryExprNode
  | functionCallNode (call : Call)
  | arrayInitializerNode
  | arrayIndexNode
  | allocNode
  | sizeofNode
  | unknownNode (exprType : Int)
inductive BinaryExpr where
  | mk (lhand : Expression) (binaryOp : String) (rhand : Expression)
inductive Call where
  | mk (callee : List String) (arguments : List Expression)
end

structure ParameterSection where
  name : String
  type : AstType

structure FunctionSignature where
  name : String
  paramList : List ParameterSection
  type : AstType
  isExtern : Bool

/-- A variable declaration; `expr` is `none` when the pointer is NULL (no
initializer). -/
structure VariableDecl where
  name : String
  type : AstType
  mutable : Bool
  expr : Option Expression

/-- The C struct `LeaveStat`: a return statement (tag `RETURN_STAT_NODE`) with
its optional expression, or another leave statement. -/
inductive LeaveStat where
  | returnStatNode (expr : Option Expression)
  | otherNode

/-- A structured statement; `genStructuredStatementNode` reads only its tag. -/
structure StructuredStatement where
  type : Int

mutual
/-- The C struct `Statement`, by its tag. -/
inductive Statement where
  | unstructuredStatementNode (unstructured : UnstructuredStatement)
  | structuredStatementNode (structured : StructuredStatement)
  | macroNode
  | unknownNode
inductive UnstructuredStatement where
  | declarationNode (decl : Declaration)
  | exprStatNode (expr : Expression)
  | leaveStatNode (leave : LeaveStat)
  | functionCallNode (call : Call)
  | otherNode
inductive Declaration where
  | functionDeclNode (funcDecl : FunctionDecl)
  | variableDeclNode (varDecl : VariableDecl)
  | otherNode
/-- A function declaration: `body` is `decl->body->stmtList->stmts`, read only
when `prototype` is false. -/
inductive FunctionDecl where
  | mk (signature : FunctionSignature) (body : List Statement) (prototype : Bool)
end

def FunctionDecl.signature : FunctionDecl → FunctionSignature
  | .mk signature _ _ => signature

def FunctionDecl.body : FunctionDecl → List Statement
  | .mk _ body _ => body

def FunctionDecl.prototype : FunctionDecl → Bool
  | .mk _ _ prototype => prototype

/-! ## The state of the code generator -/

/-- A `VariableReference`, as made by `createVariableRef(name)` and filled in
by `ref->value = ...`. -/
structure VariableReference where
  name : String
  value : LLVMValueRef
  deriving DecidableEq, Repr

def createVariableRef (name : String) : VariableReference :=
  { name := name, value := none }

/-- The hashmap of the named values: the entries, the latest first. -/
abbrev Hashmap := List (String × VariableReference)

def hashmap_new : Hashmap := []

/-- The call `hashmap_put(map, key, value)`: a key that is present is overwritten. -/
def hashmap_put (map : Hashmap) (key : String) (value : VariableReference) : Hashmap :=
  (key, value) :: map.filter (fun kv => kv.1 != key)

/-- The call `hashmap_get(map, key, &ref)`: `some ref` for `MAP_OK`. -/
def hashmap_get (map : Hashmap) (key : String) : Option VariableReference :=
  map.lookup key

structure SourceFile where
  name : String
  ast : List Statement
  module : LLVMModule
  scope : Int

/-- The C struct `LLVMCodeGenerator`.  `currentSourceFile` is the source file
that `startLLVMCodeGeneration` has made the current one; the functions below
read and write the module and the scope through it. -/
structure LLVMCodeGenerator where
  abstractSyntaxTree : List Statement
  currentNode : Int
  sourceFiles : List SourceFile
  currentSourceFile : SourceFile
  asmFiles : List String
  builder : LLVMBuilder
  namedValues : Hashmap
  /-- The messages passed to `errorMessage`, the earliest first. -/
  errors : List String

/-- The places where a function reaches its end without a `return`. -/
inductive Site where
  | genBinaryExpression | genFunctionCall | genTypeName | genTypeLit | genType
  | genExpression | genVariableDecl | genDeclaration | genLeaveStatNode
  deriving DecidableEq, Repr

/-- What the source does not fix: `getTypeFromString` and `GLOBAL_SCOPE` are
declared outside this file, `sizeofInt` is the host's `sizeof(int)`, and
`indeterminate site` is the value a caller reads when the function `site`
ended without a `return`. -/
structure Env where
  getTypeFromString : String → DataType
  GLOBAL_SCOPE : Int
  sizeofInt : Nat
  indeterminate : Site → LLVMValueRef

inductive Fault where
  | nullDereference
  deriving DecidableEq, Repr

/-- What a lowering function gives: a fault, or the handle it returns and the
state it leaves. -/
abbrev Gen := Except Fault (LLVMValueRef × LLVMCodeGenerator)

def errorMessage (self : LLVMCodeGenerator) (msg : String) : LLVMCodeGenerator :=
  { self with errors := self.errors ++ [msg] }

def genError (self : LLVMCodeGenerator) (msg : String) : LLVMCodeGenerator :=
  errorMessage self ("LLVM codegen: " ++ msg)

def LLVMCodeGenerator.module (self : LLVMCodeGenerator) : LLVMModule :=
  self.currentSourceFile.module

def LLVMCodeGenerator.setModule (self : LLVMCodeGenerator) (m : LLVMModule) :
    LLVMCodeGenerator :=
  { self with currentSourceFile := { self.currentSourceFile with module := m } }

def LLVMCodeGenerator.setBuilder (self : LLVMCodeGenerator) (b : LLVMBuilder) :
    LLVMCodeGenerator :=
  { self with builder := b }

def consumeAstNode (self : LLVMCodeGenerator) : LLVMCodeGenerator :=
  { self with currentNode := self.currentNode + 1 }

def consumeAstNodeBy (self : LLVMCodeGenerator) (amount : Int) : LLVMCodeGenerator :=
  { self with currentNode := self.currentNode + amount }

/-! ## The type mapper -/

def isFloatingType (type : LLVMTypeRef) : Bool :=
  match LLVMGetTypeKind type with
  | some .LLVMFloatTypeKind => true
  | some .LLVMFP128TypeKind => true
  | some .LLVMDoubleTypeKind => true
  | _ => false

def getIntType (env : Env) : LLVMTypeRef :=
  match env.sizeofInt with
  | 2 => LLVMInt16Type
  | 4 => LLVMInt32Type
  | 8 => LLVMInt64Type
  | _ => LLVMInt16Type

/-- The type of a data-type tag, and the error messages written on the way. -/
def getLLVMType (env : Env) (type : DataType) : LLVMTypeRef × List String :=
  match type with
  | .INT_128_TYPE | .UINT_128_TYPE => (LLVMIntType 128, [])
  | .INT_64_TYPE | .UINT_64_TYPE => (LLVMInt64Type, [])
  | .INT_32_TYPE | .UINT_32_TYPE => (LLVMInt32Type, [])
  | .INT_16_TYPE | .UINT_16_TYPE => (LLVMInt16Type, [])
  | .INT_8_TYPE | .UINT_8_TYPE => (LLVMInt8Type, [])
  | .FLOAT_128_TYPE => (LLVMFP128Type, [])
  | .FLOAT_64_TYPE => (LLVMDoubleType, [])
  | .FLOAT_32_TYPE => (LLVMFloatType, [])
  | .INT_TYPE => (getIntType env, [])
  | .BOOL_TYPE => (LLVMInt1Type, [])
  | .BYTE_TYPE => (LLVMInt1Type, [])
  | .CHAR_TYPE => (LLVMInt8Type, [])
  | .VOID_TYPE => (LLVMVoidType, [])
  | .UNKNOWN_TYPE => (.null, ["LLVM codegen: Unknown type"])

/-- The state after the error messages of a call of `getLLVMType`. -/
def LLVMCodeGenerator.report (self : LLVMCodeGenerator) (msgs : List String) :
    LLVMCodeGenerator :=
  { self with errors := self.errors ++ msgs }

/-! ## Lowering of expressions -/

def genTypeName (env : Env) (self : LLVMCodeGenerator) (name : TypeName) : Gen :=
  if name.dataType = .UNKNOWN_TYPE then
    match hashmap_get self.namedValues name.name with
    | some ref => .ok (ref.value, self)
    | none => .ok (env.indeterminate .genTypeName, self)
  else
    let typeAsEnum := env.getTypeFromString name.name
    .ok (LLVMValueRef.ofTypeRef (getLLVMType env typeAsEnum).1,
         self.report (getLLVMType env typeAsEnum).2)

def genLiteral (env : Env) (self : LLVMCodeGenerator) (lit : Literal) : Gen :=
  match lit.type with
  | .INT_LITERAL_NODE =>
    match lit.intLit with
    | none => .error .nullDereference
    | some value => .ok (LLVMConstInt (getIntType env) value false, self)
  | .FLOAT_LITERAL_NODE =>
    match lit.intLit with
    | none => .error .nullDereference
    | some value => .ok (LLVMConstReal LLVMFloatType value, self)
  | .STRING_LITERAL_NODE =>
    match lit.stringLit with
    | none => .error .nullDereference
    | some value =>
      let stringLength := value.utf8ByteSize
      let added := LLVMAddGlobal self.module
        (LLVMValueRef.ofTypeRef (LLVMArrayType LLVMInt8Type stringLength)) ""
      let str := added.1
      let m1 := LLVMSetLinkage added.2 str .LLVMInternalLinkage
      let m2 := LLVMSetGlobalConstant m1 str true
      let m3 := LLVMSetInitializer m2 str (LLVMConstString value stringLength true)
      .ok (str, self.setModule m3)
  | .OTHER_NODE => .ok (none, self)

def genTypeLit (env : Env) (self : LLVMCodeGenerator) (_lit : TypeLit) : Gen :=
  .ok (env.indeterminate .genTypeLit, self)

def genType (env : Env) (self : LLVMCodeGenerator) (type : AstType) : Gen :=
  match type with
  | .typeNameNode typeName => genTypeName env self typeName
  | .typeLitNode typeLit => genTypeLit env self typeLit
  | .otherNode => .ok (env.indeterminate .genType, self)

/-- The dispatch on `expr->binaryOp` at the end of `genBinaryExpression`. -/
def buildBinaryOp (env : Env) (self : LLVMCodeGenerator) (binaryOp : String)
    (floating : Bool) (lhs rhs : LLVMValueRef) : Gen :=
  if binaryOp = "+" then
    let r := if floating then LLVMBuildFAdd self.builder lhs rhs "add"
             else LLVMBuildAdd self.builder lhs rhs "add"
    .ok (r.1, self.setBuilder r.2)
  else if binaryOp = "-" then
    let r := if floating then LLVMBuildFSub self.builder lhs rhs "sub"
             else LLVMBuildSub self.builder lhs rhs "add"
    .ok (r.1, self.setBuilder r.2)
  else if binaryOp = "*" then
    let r := if floating then LLVMBuildFMul self.builder lhs rhs "mul"
             else LLVMBuildMul self.builder lhs rhs "mul"
    .ok (r.1, self.setBuilder r.2)
  else if binaryOp = "/" then
    let r := if floating then LLVMBuildFDiv self.builder lhs rhs "div"
             else LLVMBuildUDiv self.builder lhs rhs "div"
    .ok (r.1, self.setBuilder r.2)
  else
    .ok (env.indeterminate .genBinaryExpression, self)

/-- The end of `genFunctionCall`, once every argument is lowered: the call is
built, and the function ends without a `return`. -/
def buildFunctionCall (env : Env) (self : LLVMCodeGenerator) (func : LLVMValueRef)
    (args : List LLVMValueRef) : Gen :=
  let r := LLVMBuildCall self.builder func args ""
  .ok (env.indeterminate .genFunctionCall, self.setBuilder r.2)

mutual
def genExpression (env : Env) (self : LLVMCodeGenerator) : Expression → Gen
  | .typeNode type => genType env self type
  | .literalNode lit => genLiteral env self lit
  | .binaryExprNode binary => genBinaryExpression env self binary
  | .unaryExprNode => .ok (env.indeterminate .genExpression, self)
  | .functionCallNode call => genFunctionCall env self call
  | .arrayInitializerNode => .ok (env.indeterminate .genExpression, self)
  | .arrayIndexNode => .ok (env.indeterminate .genExpression, self)
  | .allocNode => .ok (env.indeterminate .genExpression, self)
  | .sizeofNode => .ok (env.indeterminate .genExpression, self)
  | .unknownNode exprType =>
    .ok (env.indeterminate .genExpression,
         errorMessage self ("Unknown node in expression " ++ toString exprType))
def genBinaryExpression (env : Env) (self : LLVMCodeGenerator) : BinaryExpr → Gen
  | .mk lhand binaryOp _rhand =>
    match genExpression env self lhand with
    | .error e => .error e
    | .ok (lhs, self1) =>
      match genExpression env self1 lhand with
      | .error e => .error e
      | .ok (rhs, self2) =>
        let self3 := if lhs.isNone || rhs.isNone then genError self2 "Invalid expression"
                     else self2
        let floating := false
        buildBinaryOp env self3 binaryOp floating lhs rhs
def genFunctionCall (env : Env) (self : LLVMCodeGenerator) : Call → Gen
  | .mk callee arguments =>
    match callee with
    | [] => .error .nullDereference
    | funcName :: _ =>
      let func := LLVMGetNamedFunction self.module funcName
      if func.isNone then
        .ok (none, genError self "Function not found in module")
      else if LLVMCountParams self.module func ≠ arguments.length then
        .ok (none, genError self "Function has too many/few arguments")
      else
        match genArguments env self funcName arguments with
        | .error e => .error e
        | .ok (none, self1) => .ok (none, self1)
        | .ok (some args, self1) => buildFunctionCall env self1 func args
/-- The loop of `genFunctionCall` over the arguments that are left: `none`
when the loop returned `false` from the function, else the array `args`. -/
def genArguments (env : Env) (self : LLVMCodeGenerator) (funcName : String) :
    List Expression → Except Fault (Option (List LLVMValueRef) × LLVMCodeGenerator)
  | [] => .ok (some [], self)
  | expr :: rest =>
    match genExpression env self expr with
    | .error e => .error e
    | .ok (arg, self1) =>
      if arg.isNone then
        .ok (none, genError self1
          ("Could not evaluate argument in function call " ++ funcName))
      else
        match genArguments env self1 funcName rest with
        | .error e => .error e
        | .ok (none, self2) => .ok (none, self2)
        | .ok (some args, self2) => .ok (some (arg :: args), self2)
end

/-! ## Lowering of declarations and statements -/

/-- The body of the first loop of `genFunctionSignature`, up to the call of
`getTypeFromString`: the `name` it is called with, and `isPointer`.  The fault
is the read through a NULL `typeName`, or the call with the NULL `name`. -/
def resolveParamName : AstType → Except Fault (String × Bool)
  | .typeLitNode (.pointerTypeNode (.typeNameNode typeName)) => .ok (typeName.name, true)
  | .typeLitNode (.pointerTypeNode _) => .error .nullDereference
  | .typeLitNode .otherNode => .error .nullDereference
  | .typeNameNode typeName => .ok (typeName.name, false)
  | .otherNode => .error .nullDereference

/-- The first loop of `genFunctionSignature`: the array `params`, and the error
messages that `getLLVMType` wrote. -/
def genParamTypes (env : Env) :
    List ParameterSection → Except Fault (List LLVMTypeRef × List String)
  | [] => .ok ([], [])
  | param :: rest =>
    match resolveParamName param.type with
    | .error e => .error e
    | .ok (name, isPointer) =>
      let type := env.getTypeFromString name
      let resolved := getLLVMType env type
      let paramType := if isPointer then LLVMPointerType resolved.1 0 else resolved.1
      match genParamTypes env rest with
      | .error e => .error e
      | .ok (params, msgs) => .ok (paramType :: params, resolved.2 ++ msgs)

/-- The second loop of `genFunctionSignature`, from index `i` on: each
parameter of `func` is named and bound in `namedValues`. -/
def bindParams (self : LLVMCodeGenerator) (func : LLVMValueRef) (i : Nat) :
    List ParameterSection → LLVMCodeGenerator
  | [] => self
  | paramSection :: rest =>
    let param := LLVMGetParam func i
    let self1 := self.setModule (LLVMSetValueName self.module param paramSection.name)
    let ref := { createVariableRef paramSection.name with value := param }
    let self2 := { self1 with
      namedValues := hashmap_put self1.namedValues paramSection.name ref }
    bindParams self2 func (i + 1) rest

def genFunctionSignature (env : Env) (self : LLVMCodeGenerator) (decl : FunctionDecl) : Gen :=
  let signature := decl.signature
  let argCount := signature.paramList.length
  let func := LLVMGetNamedFunction self.module signature.name
  if func.isSome then
    if LLVMCountParams self.module func ≠ argCount then
      .ok (none, genError self "Function exists with different function signature")
    else
      .ok (func, self)
  else
    match genParamTypes env signature.paramList with
    | .error e => .error e
    | .ok (params, msgs) =>
      let self1 := self.report msgs
      match signature.type with
      | .typeNameNode typeName =>
        let funcType := env.getTypeFromString typeName.name
        let resolved := getLLVMType env funcType
        let self2 := self1.report resolved.2
        let funcTypeRef := LLVMFunctionType resolved.1 params false
        let added := LLVMAddFunction self2.module signature.name funcTypeRef
        let func := added.1
        let self3 := self2.setModule added.2
        let self4 := if signature.isExtern then
            self3.setModule (LLVMSetLinkage self3.module func .LLVMExternalLinkage)
          else self3
        .ok (func, bindParams self4 func 0 signature.paramList)
      | _ => .error .nullDereference

def genVariableDecl (env : Env) (self : LLVMCodeGenerator) (decl : VariableDecl) : Gen :=
  let scope := self.currentSourceFile.scope
  if scope = env.GLOBAL_SCOPE then
    match decl.expr with
    | none => .error .nullDereference
    | some initializer =>
      match genExpression env self initializer with
      | .error e => .error e
      | .ok (expr, self1) =>
        if expr.isSome then
          match genType env self1 decl.type with
          | .error e => .error e
          | .ok (type, self2) =>
            let added := LLVMAddGlobal self2.module type decl.name
            let glob := added.1
            let m := LLVMSetGlobalConstant added.2 glob (!decl.mutable)
            .ok (env.indeterminate .genVariableDecl, self2.setModule m)
        else
          .ok (env.indeterminate .genVariableDecl, genError self1 "Invalid expr")
  else
    match genType env self decl.type with
    | .error e => .error e
    | .ok (type, self1) =>
      let built := LLVMBuildAlloca self1.builder type decl.name
      let alloc := built.1
      let self2 := self1.setBuilder built.2
      let ref := { createVariableRef decl.name with value := alloc }
      let self3 := { self2 with namedValues := hashmap_put self2.namedValues decl.name ref }
      match decl.expr with
      | none => .ok (env.indeterminate .genVariableDecl, self3)
      | some initializer =>
        match genExpression env self3 initializer with
        | .error e => .error e
        | .ok (value, self4) =>
          .ok (env.indeterminate .genVariableDecl,
               self4.setBuilder (LLVMBuildStore self4.builder value alloc).2)

def genLeaveStatNode (env : Env) (self : LLVMCodeGenerator) (leave : LeaveStat) : Gen :=
  match leave with
  | .returnStatNode none =>
    .ok (env.indeterminate .genLeaveStatNode,
         self.setBuilder (LLVMBuildRet self.builder none).2)
  | .returnStatNode (some e) =>
    match genExpression env self e with
    | .error err => .error err
    | .ok (expr, self1) =>
      .ok (env.indeterminate .genLeaveStatNode,
           self1.setBuilder (LLVMBuildRet self1.builder expr).2)
  | .otherNode => .ok (env.indeterminate .genLeaveStatNode, self)

def genStructuredStatementNode (_env : Env) (self : LLVMCodeGenerator)
    (_stmt : StructuredStatement) : Gen :=
  .ok (none, self)

def LLVMCodeGenerator.setScope (self : LLVMCodeGenerator) (scope : Int) :
    LLVMCodeGenerator :=
  { self with currentSourceFile := { self.currentSourceFile with scope := scope } }

mutual
def genStatement (env : Env) (self : LLVMCodeGenerator) : Statement → Gen
  | .unstructuredStatementNode unstructured =>
    genUnstructuredStatementNode env self unstructured
  | .structuredStatementNode structured => genStructuredStatementNode env self structured
  | .macroNode => .ok (none, consumeAstNode self)
  | .unknownNode => .ok (none, errorMessage self "Unknown statement")
def genUnstructuredStatementNode (env : Env) (self : LLVMCodeGenerator) :
    UnstructuredStatement → Gen
  | .declarationNode decl => genDeclaration env self decl
  | .exprStatNode expr => genExpression env self expr
  | .leaveStatNode leave => genLeaveStatNode env self leave
  | .functionCallNode call => genFunctionCall env self call
  | .otherNode => .ok (none, self)
def genDeclaration (env : Env) (self : LLVMCodeGenerator) : Declaration → Gen
  | .functionDeclNode funcDecl => genFunctionDecl env self funcDecl
  | .variableDeclNode varDecl => genVariableDecl env self varDecl
  | .otherNode => .ok (env.indeterminate .genDeclaration, self)
def genFunctionDecl (env : Env) (self : LLVMCodeGenerator) : FunctionDecl → Gen
  | .mk signature body isPrototype =>
    let self1 := self.setScope (self.currentSourceFile.scope + 1)
    match genFunctionSignature env self1 (.mk signature body isPrototype) with
    | .error e => .error e
    | .ok (prototype, self2) =>
      if prototype.isNone then
        .ok (none, genError self2 "hmm")
      else if isPrototype then
        .ok (prototype, self2.setScope (self2.currentSourceFile.scope - 1))
      else
        let appended := LLVMAppendBasicBlock self2.module prototype "entry"
        let block := appended.1
        let self3 := (self2.setModule appended.2).setBuilder
          (LLVMPositionBuilderAtEnd self2.builder block)
        match genStatements env self3 body with
        | .error e => .error e
        | .ok self4 => .ok (prototype, self4.setScope (self4.currentSourceFile.scope - 1))
/-- The loop over the statements of a body; the values returned by
`genStatement` are dropped. -/
def genStatements (env : Env) (self : LLVMCodeGenerator) :
    List Statement → Except Fault LLVMCodeGenerator
  | [] => .ok self
  | stmt :: rest =>
    match genStatement env self stmt with
    | .error e => .error e
    | .ok (_, self1) => genStatements env self1 rest
end

/-- The loop of `traverseAST` over `self->abstractSyntaxTree`. -/
def traverseAST (env : Env) (self : LLVMCodeGenerator) : Except Fault LLVMCodeGenerator :=
  genStatements env self self.abstractSyntaxTree

/-! ## The build pipeline

The file system and the processes started with `popen` are outside the code
generator.  What the code asks of them is recorded as a list of events, in the
order asked, and what they answer is given by a `Host`.  `LLVMDumpModule` only
prints, and is not recorded. -/

/-- A request to the toolkit's verifier and writer, or to the operating system. -/
inductive Event where
  | verifyModule (module : LLVMModule)
  | writeBitcode (module : LLVMModule) (path : String)
  | popen (command : String)
  | pclose
  | remove (path : String)
  deriving DecidableEq, Repr

/-- The answers of the world outside, each of them for the events so far.
`COMPILER` and `OUTPUT_EXECUTABLE_NAME` are the macros of that name, defined
outside this file.  `LLVMVerifyModule` gives the error message when the result
is not zero; `LLVMWriteBitcodeToFile` and `remove` give whether the result is not
zero; `popen` gives `none` for a NULL stream, else the exit status that `pclose`
returns later. -/
structure Host where
  COMPILER : String
  OUTPUT_EXECUTABLE_NAME : String
  LLVMVerifyModule : LLVMModule → Option String
  LLVMWriteBitcodeToFile : List Event → LLVMModule → String → Bool
  popen : List Event → String → Option Int
  remove : List Event → String → Bool

/-- What a stage of the pipeline gives: a fault, or the state and the events. -/
abbrev Stage := Except Fault (LLVMCodeGenerator × List Event)

/-- The function `createBitcode`: the name of the bitcode file, the state and
the events. -/
def createBitcode (host : Host) (self : LLVMCodeGenerator) (events : List Event) :
    String × LLVMCodeGenerator × List Event :=
  let bitcodeFilename := "" ++ self.currentSourceFile.name ++ ".bc"
  let events1 := events ++ [.verifyModule self.module]
  match host.LLVMVerifyModule self.module with
  | some error => (bitcodeFilename, genError self error, events1)
  | none =>
    if host.LLVMWriteBitcodeToFile events1 self.module bitcodeFilename then
      (bitcodeFilename, genError self "Failed to write bit-code",
       events1 ++ [.writeBitcode self.module bitcodeFilename])
    else
      (bitcodeFilename, self, events1 ++ [.writeBitcode self.module bitcodeFilename])

/-- The function `convertBitcodeToAsm`.  When `popen` gives NULL the error is
written and `pclose(pipe)` then reads through the NULL stream. -/
def convertBitcodeToAsm (host : Host) (self : LLVMCodeGenerator) (events : List Event)
    (bitcodeName : String) : Stage :=
  let asmFilename := "" ++ bitcodeName ++ ".s"
  let toAsmCommand := "" ++ "llc " ++ bitcodeName ++ " -o " ++ asmFilename
  match host.popen events toAsmCommand with
  | none => .error .nullDereference
  | some _ =>
    let events1 := events ++ [.popen toAsmCommand, .pclose]
    let self1 := if host.remove events1 bitcodeName then
        genError self ("Couldn't remove bitcode file " ++ bitcodeName)
      else self
    .ok ({ self1 with asmFiles := self1.asmFiles ++ [asmFilename] },
         events1 ++ [.remove bitcodeName])

/-- The first loop of `createBinary`: the names of the assembly files are added
to the command, each followed by a blank. -/
def appendAsmFiles (linkCommand : String) : List String → String
  | [] => linkCommand
  | asmFile :: rest => appendAsmFiles (linkCommand ++ asmFile ++ " ") rest

/-- The command that `createBinary` builds. -/
def linkCommand (host : Host) (asmFiles : List String) : String :=
  appendAsmFiles ("" ++ host.COMPILER ++ " ") asmFiles ++ " -o " ++ host.OUTPUT_EXECUTABLE_NAME

/-- The second loop of `createBinary`: each assembly file is removed, with an
error message when `remove` does not give zero. -/
def removeAsmFiles (host : Host) (self : LLVMCodeGenerator) (events : List Event) :
    List String → LLVMCodeGenerator × List Event
  | [] => (self, events)
  | asmFile :: rest =>
    let self1 := if host.remove events asmFile then
        genError self ("Couldn't remove assembly file " ++ asmFile)
      else self
    removeAsmFiles host self1 (events ++ [.remove asmFile]) rest

/-- The function `createBinary`.  When `popen` gives NULL the error is written
and `pclose(pipe)` then reads through the NULL stream. -/
def createBinary (host : Host) (self : LLVMCodeGenerator) (events : List Event) : Stage :=
  match host.popen events (linkCommand host self.asmFiles) with
  | none => .error .nullDereference
  | some _ =>
    .ok (removeAsmFiles host self
      (events ++ [.popen (linkCommand host self.asmFiles), .pclose]) self.asmFiles)

/-- The start of the loop body of `startLLVMCodeGeneration`: the source file
becomes the current one, with a new module named after it. -/
def beginSourceFile (self : LLVMCodeGenerator) (sf : SourceFile) : LLVMCodeGenerator :=
  { self with
    currentNode := 0,
    currentSourceFile := { sf with module := LLVMModuleCreateWithName sf.name },
    abstractSyntaxTree := sf.ast }

/-- The end of the loop body of `startLLVMCodeGeneration`: `createBitcode`, then
`convertBitcodeToAsm` with the name it returned. -/
def emitSourceFile (host : Host) (self : LLVMCodeGenerator) (events : List Event) : Stage :=
  let bitcode := createBitcode host self events
  convertBitcodeToAsm host bitcode.2.1 bitcode.2.2 bitcode.1

/-- The loop of `startLLVMCodeGeneration` over the source files from the index
`i` on.  The current source file is the `i`-th item of `sourceFiles` itself (a
pointer into the vector), so what the body did to it is written to that item. -/
def generateSourceFiles (env : Env) (host : Host) :
    LLVMCodeGenerator → List Event → Nat → List SourceFile → Stage
  | self, events, _, [] => .ok (self, events)
  | self, events, i, sf :: rest =>
    match traverseAST env (beginSourceFile self sf) with
    | .error e => .error e
    | .ok self1 =>
      match emitSourceFile host self1 events with
      | .error e => .error e
      | .ok (self2, events2) =>
        generateSourceFiles env host
          { self2 with sourceFiles := self2.sourceFiles.set i self2.currentSourceFile }
          events2 (i + 1) rest

/-- The function `startLLVMCodeGeneration`; the vector `asmFiles` that it
destroys at the end is left as `createBinary` read it. -/
def startLLVMCodeGeneration (env : Env) (host : Host) (self : LLVMCodeGenerator)
    (events : List Event) : Stage :=
  let self1 := { self with asmFiles := [] }
  match generateSourceFiles env host self1 events 0 self1.sourceFiles with
  | .error e => .error e
  | .ok (self2, events2) => createBinary host self2 events2

/-! ## Notions used to state the properties -/

/-- The state `t` is the state `s` after expressions were lowered: the
functions of the module, the bindings, the scope and the insertion block are
those of `s`, the globals of `s` are followed by globals without a name, and the
instructions built in `s` are followed by further instructions. -/
structure Extends (s t : LLVMCodeGenerator) : Prop where
  functions : t.module.functions = s.module.functions
  globals : ∃ extra, t.module.globals = s.module.globals ++ extra ∧ ∀ g ∈ extra, g.name = ""
  built : ∃ extra, t.builder.built = s.builder.built ++ extra
  insertBlock : t.builder.insertBlock = s.builder.insertBlock
  namedValues : t.namedValues = s.namedValues
  scope : t.currentSourceFile.scope = s.currentSourceFile.scope

/-- The expressions are lowered one after the other, in the order of the list,
from the state `self`; each of them lowers to a value (a non-NULL handle); the
values are `args` and the state reached is the last argument. -/
inductive LowersAll (env : Env) :
    LLVMCodeGenerator → List Expression → List LLVMValueRef → LLVMCodeGenerator → Prop where
  | nil (self : LLVMCodeGenerator) : LowersAll env self [] [] self
  | cons {self self1 self2 : LLVMCodeGenerator} {expr : Expression} {v : LLVMValue}
      {rest : List Expression} {args : List LLVMValueRef}
      (head : genExpression env self expr = .ok (some v, self1))
      (tail : LowersAll env self1 rest args self2) :
      LowersAll env self (expr :: rest) (some v :: args) self2

/-- A function named `funcName` is in the module, and it has `argc` parameters. -/
def calleeDeclared (m : LLVMModule) (funcName : String) (argc : Nat) : Bool :=
  match m.functions.find? (fun f => f.name == funcName) with
  | some f => f.paramTypes.length == argc
  | none => false

/-- The state in which `genFunctionCall` has built its call instruction, after
the arguments were lowered to `args` in the state `self1`. -/
def withCallBuilt (self1 : LLVMCodeGenerator) (funcName : String)
    (args : List LLVMValueRef) : LLVMCodeGenerator :=
  self1.setBuilder
    { self1.builder with built := self1.builder.built ++
        [(self1.builder.insertBlock, .call (some (.function funcName)) args "")] }

/-- The call of `genFunctionCall` built no call instruction of its own: the
builder of `self2` is the builder of `self`, or it is the builder that the
lowering of the arguments left when it stopped at the first argument that
lowered to NULL. -/
def NoCallBuilt (env : Env) (self : LLVMCodeGenerator) (arguments : List Expression)
    (self2 : LLVMCodeGenerator) : Prop :=
  self2.builder = self.builder ∨
  ∃ pre bad post args self1 stop, arguments = pre ++ bad :: post ∧
    LowersAll env self pre args self1 ∧
    genExpression env self1 bad = .ok (none, stop) ∧
    self2.builder = stop.builder

/-- Every name that `s` resolves is resolved by `t`. -/
def KeepsBindings (s t : LLVMCodeGenerator) : Prop :=
  ∀ name, (hashmap_get s.namedValues name).isSome = true →
    (hashmap_get t.namedValues name).isSome = true

/-- The link command as the specification words it: the compiler, then the
assembly files in the order of the list, each followed by a blank, then the
output name. -/
def linkCommandSpec (host : Host) (asmFiles : List String) : String :=
  host.COMPILER ++ " " ++ String.join (asmFiles.map (fun f => f ++ " ")) ++ " -o " ++
    host.OUTPUT_EXECUTABLE_NAME

/-- The name of the bitcode file of the unit `name`. -/
def bitcodeFileName (name : String) : String := name ++ ".bc"

/-- The name of the assembly file of the unit `name`. -/
def asmFileName (name : String) : String := name ++ ".bc.s"

/-- The command that starts the assembler for the unit `name`. -/
def llcCommandSpec (name : String) : String :=
  "llc " ++ name ++ ".bc -o " ++ name ++ ".bc.s"

/-- The requests of `createBitcode` for the current unit: the verification of
its module, and the write of the bitcode file exactly when the verification
passed. -/
def bitcodeEvents (host : Host) (self : LLVMCodeGenerator) : List Event :=
  match host.LLVMVerifyModule self.module with
  | some _ => [.verifyModule self.module]
  | none => [.verifyModule self.module,
             .writeBitcode self.module (bitcodeFileName self.currentSourceFile.name)]

/-- What no lowering function writes: the name of the current source file, the
list of the assembly files and the list of the source files. -/
def LLVMCodeGenerator.outside (s : LLVMCodeGenerator) :
    String × List String × List SourceFile :=
  (s.currentSourceFile.name, s.asmFiles, s.sourceFiles)

/-- The state `t` comes after the state `s` in the lowering of a unit: what no
lowering function writes is the same, and the scope is not below the one of
`s`. -/
def Advances (s t : LLVMCodeGenerator) : Prop :=
  t.outside = s.outside ∧ s.currentSourceFile.scope ≤ t.currentSourceFile.scope

/-- The requests of the last stages of one unit, whose lowered module is `m`:
the verification of the module, the write of the bitcode file exactly when the
verification passed, the start of the assembler on the bitcode file, the close
of its stream and the removal of the bitcode file. -/
def stageEvents (host : Host) (m : LLVMModule) (name : String) : List Event :=
  (match host.LLVMVerifyModule m with
    | some _ => [.verifyModule m]
    | none => [.verifyModule m, .writeBitcode m (bitcodeFileName name)]) ++
  [.popen (llcCommandSpec name), .pclose, .remove (bitcodeFileName name)]

/-- The requests of the last stages of the units, one unit after the other,
the `i`-th unit with the `i`-th module of `modules`. -/
def sessionEvents (host : Host) (units : List SourceFile) (modules : List LLVMModule) :
    List Event :=
  (List.zipWith (fun sf m => stageEvents host m sf.name) units modules).flatten

/-- The parameter type that the specification gives to a declared parameter
type: pointer to the type of the named base type for a pointer, the type of
the named type for a type name. -/
def paramTypeSpec (env : Env) : AstType → Option LLVMTypeRef
  | .typeLitNode (.pointerTypeNode (.typeNameNode base)) =>
    some (LLVMPointerType (getLLVMType env (env.getTypeFromString base.name)).1 0)
  | .typeNameNode typeName => some (getLLVMType env (env.getTypeFromString typeName.name)).1
  | _ => none

/-! ## Concrete inputs -/

/-- An environment for the concrete runs: `int` and `f32` are type names, an
`int` has 4 bytes, the global scope is 0, and a function that ends without a
`return` gives NULL. -/
def exampleEnv : Env :=
  { getTypeFromString := fun name =>
      if name = "int" then .INT_TYPE else if name = "f32" then .FLOAT_32_TYPE
      else .UNKNOWN_TYPE,
    GLOBAL_SCOPE := 0,
    sizeofInt := 4,
    indeterminate := fun _ => none }

/-- The generator when the lowering of the unit `main` starts: the builder and
the named values are as `createLLVMCodeGenerator` made them, and
`startLLVMCodeGeneration` has set `currentNode` to 0 and has made `main`, with
its new module, the current source file; the scope is the global scope 0. -/
def startGenerator : LLVMCodeGenerator :=
  { abstractSyntaxTree := [],
    currentNode := 0,
    sourceFiles := [],
    currentSourceFile :=
      { name := "main", ast := [], module := LLVMModuleCreateWithName "main", scope := 0 },
    asmFiles := [],
    builder := LLVMCreateBuilder,
    namedValues := hashmap_new,
    errors := [] }

/-- The integer literal `n`. -/
def intLiteral (n : Int) : Expression :=
  .literalNode { type := .INT_LITERAL_NODE, intLit := some n, stringLit := none }

/-- The name `name` used as an expression (the parser attaches `UNKNOWN_TYPE`
to a name that is not a type). -/
def nameExpr (name : String) : Expression :=
  .typeNode (.typeNameNode { name := name, dataType := .UNKNOWN_TYPE })

/-- The call `funcName(arguments)` as an expression. -/
def callExpr (funcName : String) (arguments : List Expression) : Expression :=
  .functionCallNode (.mk [funcName] arguments)

def intTypeNode : AstType := .typeNameNode { name := "int", dataType := .INT_TYPE }

def f32TypeNode : AstType := .typeNameNode { name := "f32", dataType := .FLOAT_32_TYPE }

/-- The constant that the literal `n` lowers to under `exampleEnv`. -/
def int32Const (n : Int) : LLVMValueRef := some (.constInt (.intType 32) n false)

/-- The function `name` that returns `i32` and has the parameters `paramNames`,
each of type `i32`, without a basic block. -/
def intFunction (name : String) (paramNames : List String) : LLVMFunction :=
  { name := name, returnType := .intType 32,
    paramTypes := paramNames.map (fun _ => .intType 32), isVarArg := false,
    linkage := .LLVMExternalLinkage, paramNames := paramNames, basicBlocks := [] }

/-- The statement `return expr`. -/
def returnStatement (expr : Expression) : Statement :=
  .unstructuredStatementNode (.leaveStatNode (.returnStatNode (some expr)))

/-- The declaration `add(a : int, b : int) : int` with the body `return a + b`. -/
def addDecl : FunctionDecl :=
  .mk { name := "add",
        paramList := [{ name := "a", type := intTypeNode }, { name := "b", type := intTypeNode }],
        type := intTypeNode, isExtern := false }
    [returnStatement (.binaryExprNode (.mk (nameExpr "a") "+" (nameExpr "b")))] false

/-- The declaration `fadd(a : f32, b : f32) : f32` with the body `return a + b`. -/
def faddDecl : FunctionDecl :=
  .mk { name := "fadd",
        paramList := [{ name := "a", type := f32TypeNode }, { name := "b", type := f32TypeNode }],
        type := f32TypeNode, isExtern := false }
    [returnStatement (.binaryExprNode (.mk (nameExpr "a") "+" (nameExpr "b")))] false

/-- The declaration of the constant `x : int = 5`. -/
def constXDecl : VariableDecl :=
  { name := "x", type := intTypeNode, mutable := false, expr := some (intLiteral 5) }

/-- The declaration of the constant `y : int = g()`; `g` is not declared. -/
def constYDecl : VariableDecl :=
  { name := "y", type := intTypeNode, mutable := false, expr := some (callExpr "g" []) }

/-- The prototype `f() : int`, without parameters. -/
def fNoParamsDecl : FunctionDecl :=
  .mk { name := "f", paramList := [], type := intTypeNode, isExtern := false } [] true

/-- The signature `p(a : int, b : ^f32) : int`, the second parameter a pointer. -/
def pointerParamSignature : FunctionSignature :=
  { name := "p",
    paramList := [{ name := "a", type := intTypeNode },
                  { name := "b", type := .typeLitNode (.pointerTypeNode f32TypeNode) }],
    type := intTypeNode, isExtern := false }

/-- The prototype `name(paramNames ... : int) : int`. -/
def intPrototype (name : String) (paramNames : List String) : FunctionDecl :=
  .mk { name := name,
        paramList := paramNames.map (fun n => { name := n, type := intTypeNode }),
        type := intTypeNode, isExtern := false } [] true

/-- The binding of the parameter `name`, the `index`-th of the function `fn`. -/
def paramBinding (fn : String) (index : Nat) (name : String) : String × VariableReference :=
  (name, { name := name, value := some (.param fn index) })

/-- The generator after the prototype `f(a : int) : int` was lowered at the
start of the unit `main`. -/
def generatorWithF : LLVMCodeGenerator :=
  { startGenerator with
    currentSourceFile := { startGenerator.currentSourceFile with
      module := { name := "main", functions := [intFunction "f" ["a"]], globals := [] } },
    namedValues := [paramBinding "f" 0 "a"] }

/-- The generator after the prototype `f(a : int, b : int, c : int) : int` was
lowered at the start of the unit `main`. -/
def generatorWithF3 : LLVMCodeGenerator :=
  { startGenerator with
    currentSourceFile := { startGenerator.currentSourceFile with
      module := { name := "main", functions := [intFunction "f" ["a", "b", "c"]],
                  globals := [] } },
    namedValues := [paramBinding "f" 2 "c", paramBinding "f" 1 "b", paramBinding "f" 0 "a"] }

/-- The declaration `f(x : int) : int` with the body `return x`. -/
def fRenamedDecl : FunctionDecl :=
  .mk { name := "f", paramList := [{ name := "x", type := intTypeNode }],
        type := intTypeNode, isExtern := false }
    [returnStatement (nameExpr "x")] false

/-- The declaration `loc(a : int) : int` with the body `y : int = 5; return a`. -/
def localDecl : FunctionDecl :=
  .mk { name := "loc", paramList := [{ name := "a", type := intTypeNode }],
        type := intTypeNode, isExtern := false }
    [.unstructuredStatementNode (.declarationNode (.variableDeclNode
        { name := "y", type := intTypeNode, mutable := false, expr := some (intLiteral 5) })),
     returnStatement (nameExpr "a")] false

/-- The declaration `h() : int` with the body `return g()`; `g` is not declared. -/
def returnUndeclaredDecl : FunctionDecl :=
  .mk { name := "h", paramList := [], type := intTypeNode, isExtern := false }
    [returnStatement (callExpr "g" [])] false

/-- The declaration `h() : int` with the body `return`, without an expression. -/
def bareReturnDecl : FunctionDecl :=
  .mk { name := "h", paramList := [], type := intTypeNode, isExtern := false }
    [.unstructuredStatementNode (.leaveStatNode (.returnStatNode none))] false

/-- The top-level statement for a function declaration. -/
def functionStatement (decl : FunctionDecl) : Statement :=
  .unstructuredStatementNode (.declarationNode (.functionDeclNode decl))

/-- The top-level statement for a variable declaration. -/
def variableStatement (decl : VariableDecl) : Statement :=
  .unstructuredStatementNode (.declarationNode (.variableDeclNode decl))

/-- The unit `f(a : int) : int; f() : int; x : int = 5`: its second declaration
fails, the parameter count differs from the one of the first. -/
def unitWithFailingDecl : List Statement :=
  [functionStatement (intPrototype "f" ["a"]), functionStatement fNoParamsDecl,
   variableStatement constXDecl]

/-- The same unit without the failing declaration. -/
def unitWithoutFailingDecl : List Statement :=
  [functionStatement (intPrototype "f" ["a"]), variableStatement constXDecl]

/-- The global that `x : int = 5` is lowered to at global scope. -/
def globalX : LLVMGlobal :=
  { name := "x", type := some (.typeHandle (.intType 32)), linkage := .LLVMExternalLinkage,
    isGlobalConstant := true, initializer := none }

/-- A host for the concrete runs: the compiler is `cc`, the executable `main`;
the module named `bad` does not verify; every write is done and every process
is started and exits with 0; the files of the unit `bad` cannot be removed. -/
def exampleHost : Host :=
  { COMPILER := "cc",
    OUTPUT_EXECUTABLE_NAME := "main",
    LLVMVerifyModule := fun m => if m.name = "bad" then some "module is broken" else none,
    LLVMWriteBitcodeToFile := fun _ _ _ => false,
    popen := fun _ _ => some 0,
    remove := fun _ path => path == "bad.bc" || path == "bad.bc.s" }

/-- The host `exampleHost`, except that every process exits with the status 1
and every file can be removed. -/
def failingLinkHost : Host :=
  { exampleHost with popen := fun _ _ => some 1, remove := fun _ _ => false }

/-- A source file without statements, before it is lowered. -/
def emptySourceFile (name : String) : SourceFile :=
  { name := name, ast := [], module := LLVMModuleCreateWithName "", scope := 0 }

/-- The generator of a session over the units `bad` and `good`, as
`createLLVMCodeGenerator` leaves it. -/
def twoUnitGenerator : LLVMCodeGenerator :=
  { startGenerator with sourceFiles := [emptySourceFile "bad", emptySourceFile "good"] }

/-- The generator before `createBinary`, with the assembly files `a.s` and
`b.s` in the list. -/
def linkGenerator : LLVMCodeGenerator :=
  { startGenerator with asmFiles := ["a.s", "b.s"] }

/-! ## What the lowering of an expression leaves alone -/

theorem Extends.refl (s : LLVMCodeGenerator) : Extends s s :=
  ⟨rfl, ⟨[], by simp⟩, ⟨[], by simp⟩, rfl, rfl, rfl⟩

theorem Extends.trans {s t u : LLVMCodeGenerator} (h1 : Extends s t) (h2 : Extends t u) :
    Extends s u := by
  obtain ⟨f1, ⟨g1, hg1, hn1⟩, ⟨b1, hb1⟩, i1, n1, c1⟩ := h1
  obtain ⟨f2, ⟨g2, hg2, hn2⟩, ⟨b2, hb2⟩, i2, n2, c2⟩ := h2
  refine ⟨f2.trans f1, ⟨g1 ++ g2, ?_, ?_⟩, ⟨b1 ++ b2, ?_⟩, i2.trans i1, n2.trans n1, c2.trans c1⟩
  · rw [hg2, hg1, List.append_assoc]
  · intro g hg
    rcases List.mem_append.mp hg with h | h
    · exact hn1 g h
    · exact hn2 g h
  · rw [hb2, hb1, List.append_assoc]

theorem Extends.genError (s : LLVMCodeGenerator) (msg : String) :
    Extends s (genError s msg) :=
  ⟨rfl, ⟨[], by simp [ArkCodegen.genError, errorMessage, LLVMCodeGenerator.module]⟩,
   ⟨[], by simp [ArkCodegen.genError, errorMessage]⟩, rfl, rfl, rfl⟩

/-- Building an instruction adds it after the instructions built before. -/
theorem Extends.build (s : LLVMCodeGenerator) (i : LLVMInstruction) :
    Extends s (s.setBuilder (s.builder.build i).2) :=
  ⟨rfl, ⟨[], by simp [LLVMCodeGenerator.setBuilder, LLVMCodeGenerator.module]⟩,
   ⟨[(s.builder.insertBlock, i)], by simp [LLVMCodeGenerator.setBuilder, LLVMBuilder.build]⟩,
   rfl, rfl, rfl⟩

theorem Extends.report (s : LLVMCodeGenerator) (msgs : List String) : Extends s (s.report msgs) :=
  ⟨rfl, ⟨[], by simp [LLVMCodeGenerator.report, LLVMCodeGenerator.module]⟩,
   ⟨[], by simp [LLVMCodeGenerator.report]⟩, rfl, rfl, rfl⟩

theorem Extends.errorMessage (s : LLVMCodeGenerator) (msg : String) :
    Extends s (errorMessage s msg) :=
  ⟨rfl, ⟨[], by simp [ArkCodegen.errorMessage, LLVMCodeGenerator.module]⟩,
   ⟨[], by simp [ArkCodegen.errorMessage]⟩, rfl, rfl, rfl⟩

theorem genTypeName_extends (env : Env) (s : LLVMCodeGenerator) (name : TypeName)
    (v : LLVMValueRef) (t : LLVMCodeGenerator) (h : genTypeName env s name = .ok (v, t)) :
    Extends s t := by
  unfold genTypeName at h
  split at h
  · split at h
    · cases h; exact Extends.refl s
    · cases h; exact Extends.refl s
  · cases h; exact Extends.report s _

theorem genType_extends (env : Env) (s : LLVMCodeGenerator) (type : AstType)
    (v : LLVMValueRef) (t : LLVMCodeGenerator) (h : genType env s type = .ok (v, t)) :
    Extends s t := by
  unfold genType at h
  split at h
  · exact genTypeName_extends env s _ v t h
  · unfold genTypeLit at h; cases h; exact Extends.refl s
  · cases h; exact Extends.refl s

/-- Modifying the last element of a list. -/
theorem List.modify_append_length {α : Type} (f : α → α) (l : List α) (a : α) :
    (l ++ [a]).modify f l.length = l ++ [f a] := by
  induction l with
  | nil => rfl
  | cons x xs ih => simp [ih]

/-- The global that `genLiteral` adds for a string literal. -/
theorem stringLiteral_global (m : LLVMModule) (ty : LLVMValueRef) (name : String)
    (l : LLVMLinkage) (c : Bool) (i : LLVMValueRef) :
    LLVMSetInitializer (LLVMSetGlobalConstant (LLVMSetLinkage (LLVMAddGlobal m ty name).2
      (LLVMAddGlobal m ty name).1 l) (LLVMAddGlobal m ty name).1 c)
      (LLVMAddGlobal m ty name).1 i =
    { m with globals := m.globals ++
      [{ name := name, type := ty, linkage := l, isGlobalConstant := c, initializer := i }] } := by
  simp [LLVMSetInitializer, LLVMSetGlobalConstant, LLVMSetLinkage, LLVMAddGlobal,
    LLVMModule.updateGlobal, List.modify_append_length]

theorem genLiteral_extends (env : Env) (s : LLVMCodeGenerator) (lit : Literal)
    (v : LLVMValueRef) (t : LLVMCodeGenerator) (h : genLiteral env s lit = .ok (v, t)) :
    Extends s t := by
  unfold genLiteral at h
  split at h
  · split at h
    · cases h
    · cases h; exact Extends.refl s
  · split at h
    · cases h
    · cases h; exact Extends.refl s
  · split at h
    · cases h
    · simp only [stringLiteral_global] at h
      cases h
      exact ⟨rfl, ⟨_, rfl, by simp⟩, ⟨[], by simp [LLVMCodeGenerator.setModule]⟩, rfl, rfl, rfl⟩
  · cases h; exact Extends.refl s

theorem buildBinaryOp_extends (env : Env) (s : LLVMCodeGenerator) (op : String) (fl : Bool)
    (lhs rhs v : LLVMValueRef) (t : LLVMCodeGenerator)
    (h : buildBinaryOp env s op fl lhs rhs = .ok (v, t)) : Extends s t := by
  unfold buildBinaryOp at h
  split at h
  · cases h; cases fl <;> exact Extends.build s _
  split at h
  · cases h; cases fl <;> exact Extends.build s _
  split at h
  · cases h; cases fl <;> exact Extends.build s _
  split at h
  · cases h; cases fl <;> exact Extends.build s _
  · cases h; exact Extends.refl s

/-! The lowering of an expression keeps the functions, the bindings, the scope
and the insertion block; it adds globals without a name (the string literals)
and instructions. -/

mutual
theorem genExpression_extends (env : Env) (s : LLVMCodeGenerator) :
    (e : Expression) → ∀ v t, genExpression env s e = .ok (v, t) → Extends s t
  | .typeNode type, v, t, h => by
    rw [genExpression] at h
    exact genType_extends env s type v t h
  | .literalNode lit, v, t, h => by
    rw [genExpression] at h
    exact genLiteral_extends env s lit v t h
  | .binaryExprNode binary, v, t, h => by
    rw [genExpression] at h
    exact genBinaryExpression_extends env s binary v t h
  | .unaryExprNode, v, t, h => by
    rw [genExpression] at h
    cases h; exact Extends.refl s
  | .functionCallNode call, v, t, h => by
    rw [genExpression] at h
    exact genFunctionCall_extends env s call v t h
  | .arrayInitializerNode, v, t, h => by
    rw [genExpression] at h
    cases h; exact Extends.refl s
  | .arrayIndexNode, v, t, h => by
    rw [genExpression] at h
    cases h; exact Extends.refl s
  | .allocNode, v, t, h => by
    rw [genExpression] at h
    cases h; exact Extends.refl s
  | .sizeofNode, v, t, h => by
    rw [genExpression] at h
    cases h; exact Extends.refl s
  | .unknownNode _, v, t, h => by
    rw [genExpression] at h
    cases h; exact Extends.errorMessage s _
theorem genBinaryExpression_extends (env : Env) (s : LLVMCodeGenerator) :
    (b : BinaryExpr) → ∀ v t, genBinaryExpression env s b = .ok (v, t) → Extends s t
  | .mk lhand op rhand, v, t, h => by
    rw [genBinaryExpression] at h
    cases h1 : genExpression env s lhand with
    | error e => simp [h1] at h
    | ok r1 =>
      obtain ⟨lhs, s1⟩ := r1
      have e1 := genExpression_extends env s lhand lhs s1 h1
      simp only [h1] at h
      cases h2 : genExpression env s1 lhand with
      | error e => simp [h2] at h
      | ok r2 =>
        obtain ⟨rhs, s2⟩ := r2
        have e2 := genExpression_extends env s1 lhand rhs s2 h2
        simp only [h2] at h
        have e3 := buildBinaryOp_extends env _ op false lhs rhs v t h
        refine (e1.trans e2).trans (Extends.trans ?_ e3)
        split
        · exact Extends.genError s2 _
        · exact Extends.refl s2
theorem genFunctionCall_extends (env : Env) (s : LLVMCodeGenerator) :
    (c : Call) → ∀ v t, genFunctionCall env s c = .ok (v, t) → Extends s t
  | .mk callee arguments, v, t, h => by
    cases callee with
    | nil => simp [genFunctionCall] at h
    | cons funcName rest =>
      simp only [genFunctionCall] at h
      split at h
      · cases h; exact Extends.genError s _
      split at h
      · cases h; exact Extends.genError s _
      cases h1 : genArguments env s funcName arguments with
      | error e => simp [h1] at h
      | ok r1 =>
        obtain ⟨args, s1⟩ := r1
        have e1 := genArguments_extends env s funcName arguments args s1 h1
        simp only [h1] at h
        cases args with
        | none => cases h; exact e1
        | some args =>
          simp only [buildFunctionCall] at h
          cases h
          exact e1.trans (Extends.build s1 _)
theorem genArguments_extends (env : Env) (s : LLVMCodeGenerator) (funcName : String) :
    (es : List Expression) → ∀ v t, genArguments env s funcName es = .ok (v, t) → Extends s t
  | [], v, t, h => by
    simp only [genArguments] at h
    cases h; exact Extends.refl s
  | e :: es, v, t, h => by
    rw [genArguments] at h
    cases h1 : genExpression env s e with
    | error e => simp [h1] at h
    | ok r1 =>
      obtain ⟨arg, s1⟩ := r1
      have e1 := genExpression_extends env s e arg s1 h1
      simp only [h1] at h
      split at h
      · cases h; exact e1.trans (Extends.genError s1 _)
      cases h2 : genArguments env s1 funcName es with
      | error e => simp [h2] at h
      | ok r2 =>
        obtain ⟨args, s2⟩ := r2
        have e2 := genArguments_extends env s1 funcName es args s2 h2
        simp only [h2] at h
        cases args with
        | none => cases h; exact e1.trans e2
        | some args => cases h; exact e1.trans e2
end


/-! ### Function calls -/

theorem LowersAll.extends {env : Env} {self self1 : LLVMCodeGenerator}
    {es : List Expression} {args : List LLVMValueRef} (h : LowersAll env self es args self1) :
    Extends self self1 := by
  induction h with
  | nil s => exact Extends.refl s
  | cons head _ ih => exact (genExpression_extends env _ _ _ _ head).trans ih

/-- The loop over the arguments gives the array `args` exactly when every
argument lowers to a value, in order. -/
theorem genArguments_some_iff (env : Env) (funcName : String) (es : List Expression) :
    ∀ (self self1 : LLVMCodeGenerator) (args : List LLVMValueRef),
      genArguments env self funcName es = .ok (some args, self1) ↔
        LowersAll env self es args self1 := by
  induction es with
  | nil =>
    intro self self1 args
    simp only [genArguments]
    constructor
    · intro h; cases h; exact LowersAll.nil self
    · intro h; cases h; rfl
  | cons e es ih =>
    intro self self1 args
    simp only [genArguments]
    constructor
    · intro h
      cases h1 : genExpression env self e with
      | error err => simp [h1] at h
      | ok r1 =>
        obtain ⟨arg, s1⟩ := r1
        simp only [h1] at h
        cases arg with
        | none => simp at h
        | some v =>
          simp only [Option.isNone_some, Bool.false_eq_true, if_false] at h
          cases h2 : genArguments env s1 funcName es with
          | error err => simp [h2] at h
          | ok r2 =>
            obtain ⟨rest, s2⟩ := r2
            simp only [h2] at h
            cases rest with
            | none => simp at h
            | some rest =>
              cases h
              exact LowersAll.cons h1 ((ih _ _ _).mp h2)
    · intro h
      cases h with
      | cons head tail =>
        simp [head, (ih _ _ _).mpr tail]

/-- The loop over the arguments returns `false` exactly when an argument lowers
to NULL after the arguments before it lowered to values, in order; the
arguments after it are not lowered. -/
theorem genArguments_none_iff (env : Env) (funcName : String) (es : List Expression) :
    ∀ (self self2 : LLVMCodeGenerator),
      genArguments env self funcName es = .ok (none, self2) ↔
        ∃ pre bad post args self1 stop, es = pre ++ bad :: post ∧
          LowersAll env self pre args self1 ∧
          genExpression env self1 bad = .ok (none, stop) ∧
          self2 = genError stop ("Could not evaluate argument in function call " ++ funcName) := by
  induction es with
  | nil =>
    intro self self2
    simp [genArguments]
  | cons e es ih =>
    intro self self2
    simp only [genArguments]
    constructor
    · intro h
      cases h1 : genExpression env self e with
      | error err => simp [h1] at h
      | ok r1 =>
        obtain ⟨arg, s1⟩ := r1
        simp only [h1] at h
        cases arg with
        | none =>
          simp only [Option.isNone_none, if_true] at h
          cases h
          exact ⟨[], e, es, [], self, s1, rfl, LowersAll.nil self, h1, rfl⟩
        | some v =>
          simp only [Option.isNone_some, Bool.false_eq_true, if_false] at h
          cases h2 : genArguments env s1 funcName es with
          | error err => simp [h2] at h
          | ok r2 =>
            obtain ⟨rest, s2⟩ := r2
            simp only [h2] at h
            cases rest with
            | some rest => simp at h
            | none =>
              cases h
              obtain ⟨pre, bad, post, args, t1, stop, hes, hpre, hbad, hst⟩ := (ih _ _).mp h2
              exact ⟨e :: pre, bad, post, some v :: args, t1, stop, by simp [hes],
                LowersAll.cons h1 hpre, hbad, hst⟩
    · rintro ⟨pre, bad, post, args, t1, stop, hes, hpre, hbad, hst⟩
      cases hpre with
      | nil =>
        simp only [List.nil_append, List.cons.injEq] at hes
        obtain ⟨rfl, rfl⟩ := hes
        simp [hbad, hst]
      | cons head tail =>
        simp only [List.cons_append, List.cons.injEq] at hes
        obtain ⟨rfl, rfl⟩ := hes
        have := (ih _ self2).mpr ⟨_, bad, post, _, t1, stop, rfl, tail, hbad, hst⟩
        simp [head, this]

/-- The two tests of `genFunctionCall` pass exactly when the callee is declared
with the number of parameters of the call. -/
theorem calleeDeclared_iff (m : LLVMModule) (funcName : String) (argc : Nat) :
    calleeDeclared m funcName argc = true ↔
      (LLVMGetNamedFunction m funcName).isNone = false ∧
        LLVMCountParams m (LLVMGetNamedFunction m funcName) = argc := by
  unfold calleeDeclared LLVMGetNamedFunction LLVMCountParams
  cases h : m.functions.find? (fun f => f.name == funcName) with
  | none => simp
  | some f => simp [LLVMModule.getFunction, h]

theorem LLVMGetNamedFunction_of_declared {m : LLVMModule} {funcName : String} {argc : Nat}
    (h : calleeDeclared m funcName argc = true) :
    LLVMGetNamedFunction m funcName = some (.function funcName) := by
  unfold calleeDeclared at h
  unfold LLVMGetNamedFunction
  cases h1 : m.functions.find? (fun f => f.name == funcName) with
  | none => simp [h1] at h
  | some f => rfl

/-- The run of `genFunctionCall` once its two tests have passed. -/
theorem genFunctionCall_of_declared (env : Env) (self : LLVMCodeGenerator)
    (funcName : String) (rest : List String) (arguments : List Expression)
    (h : calleeDeclared self.module funcName arguments.length = true) :
    genFunctionCall env self (.mk (funcName :: rest) arguments) =
      match genArguments env self funcName arguments with
      | .error e => .error e
      | .ok (none, self1) => .ok (none, self1)
      | .ok (some args, self1) =>
        .ok (env.indeterminate .genFunctionCall, withCallBuilt self1 funcName args) := by
  have h1 := (calleeDeclared_iff _ _ _).mp h
  have h2 := LLVMGetNamedFunction_of_declared h
  simp only [genFunctionCall, h1.1, h1.2]
  simp only [h2, Bool.false_eq_true, if_false, ne_eq, not_true_eq_false]
  rfl

/-- The run of `genFunctionCall` when one of its two tests fails. -/
theorem genFunctionCall_of_not_declared (env : Env) (self : LLVMCodeGenerator)
    (funcName : String) (rest : List String) (arguments : List Expression)
    (h : calleeDeclared self.module funcName arguments.length = false) :
    ∃ msg, genFunctionCall env self (.mk (funcName :: rest) arguments) =
      .ok (none, genError self msg) := by
  have h1 := (calleeDeclared_iff self.module funcName arguments.length).not
  simp only [h, Bool.false_eq_true, not_false_eq_true, true_iff, not_and] at h1
  simp only [genFunctionCall]
  by_cases hf : (LLVMGetNamedFunction self.module funcName).isNone = true
  · exact ⟨"Function not found in module", by simp [hf]⟩
  · simp only [Bool.not_eq_true] at hf
    exact ⟨"Function has too many/few arguments", by simp [hf, h1 hf]⟩


/-- C1, as it is stated, fails: the module holds a function `f` with one
parameter and the call `f(g())` has one argument, yet `genFunctionCall` returns
NULL and no instruction at all is built, because the argument `g()` does not
lower to a value. -/
theorem genFunctionCall_declared_yet_fails :
    calleeDeclared generatorWithF.module "f"
        [callExpr "g" []].length = true ∧
      genFunctionCall exampleEnv generatorWithF
          (.mk ["f"] [callExpr "g" []]) =
        .ok (none, genError (genError generatorWithF
          "Function not found in module")
          "Could not evaluate argument in function call f") ∧
      (genError (genError generatorWithF
          "Function not found in module")
          "Could not evaluate argument in function call f").builder.built = [] :=
  ⟨rfl, rfl, rfl⟩

/-- A call that succeeds: after the prototype `f(a : int) : int`, the call `f(1)`
builds one call instruction with the lowered argument. -/
theorem genFunctionCall_one_argument :
    genFunctionCall exampleEnv generatorWithF (.mk ["f"] [intLiteral 1]) =
      .ok (none, withCallBuilt generatorWithF "f" [int32Const 1]) := by
  rfl

/-- C1, amended: `genFunctionCall` returns with its call instruction built
right after the lowering of the arguments exactly when a function of the
callee's name is in the module, the number of arguments is its number of
parameters, and every argument lowers to a value; when the callee is not
declared so it returns NULL at once, and in every other case in which it
returns, it returns NULL and has built no call instruction of its own. -/
theorem genFunctionCall_builds_call_iff (env : Env) (self : LLVMCodeGenerator)
    (funcName : String) (rest : List String) (arguments : List Expression) :
    ((∃ args self1, LowersAll env self arguments args self1 ∧
        genFunctionCall env self (.mk (funcName :: rest) arguments) =
          .ok (env.indeterminate .genFunctionCall, withCallBuilt self1 funcName args)) ↔
      (calleeDeclared self.module funcName arguments.length = true ∧
        ∃ args self1, LowersAll env self arguments args self1)) ∧
    (calleeDeclared self.module funcName arguments.length = false →
      ∃ msg, genFunctionCall env self (.mk (funcName :: rest) arguments) =
        .ok (none, genError self msg)) ∧
    (∀ v self2, genFunctionCall env self (.mk (funcName :: rest) arguments) = .ok (v, self2) →
      ¬ (calleeDeclared self.module funcName arguments.length = true ∧
        ∃ args self1, LowersAll env self arguments args self1) →
      v = none ∧ NoCallBuilt env self arguments self2) := by
  refine ⟨⟨?_, ?_⟩, genFunctionCall_of_not_declared env self funcName rest arguments, ?_⟩
  · rintro ⟨args, self1, hlow, hres⟩
    refine ⟨?_, args, self1, hlow⟩
    by_contra hd
    simp only [Bool.not_eq_true] at hd
    obtain ⟨msg, hmsg⟩ := genFunctionCall_of_not_declared env self funcName rest arguments hd
    rw [hmsg] at hres
    simp only [Except.ok.injEq, Prod.mk.injEq] at hres
    obtain ⟨extra, hextra⟩ := hlow.extends.built
    have hb := congrArg (fun s => s.builder.built.length) hres.2
    simp [genError, errorMessage, withCallBuilt, LLVMCodeGenerator.setBuilder, hextra] at hb
  · rintro ⟨hd, args, self1, hlow⟩
    refine ⟨args, self1, hlow, ?_⟩
    rw [genFunctionCall_of_declared env self funcName rest arguments hd,
      (genArguments_some_iff env funcName arguments self self1 args).mpr hlow]
  · intro v self2 hres hnot
    cases hd : calleeDeclared self.module funcName arguments.length with
    | false =>
      obtain ⟨msg, hmsg⟩ := genFunctionCall_of_not_declared env self funcName rest arguments hd
      rw [hmsg] at hres
      simp only [Except.ok.injEq, Prod.mk.injEq] at hres
      exact ⟨hres.1.symm, Or.inl (by rw [← hres.2]; rfl)⟩
    | true =>
      rw [genFunctionCall_of_declared env self funcName rest arguments hd] at hres
      cases ha : genArguments env self funcName arguments with
      | error e => simp [ha] at hres
      | ok r =>
        obtain ⟨args, self1⟩ := r
        cases args with
        | some args =>
          exact absurd ⟨hd, args, self1, (genArguments_some_iff _ _ _ _ _ _).mp ha⟩ hnot
        | none =>
          simp only [ha, Except.ok.injEq, Prod.mk.injEq] at hres
          obtain ⟨pre, bad, post, args, t1, stop, hes, hpre, hbad, hst⟩ :=
            (genArguments_none_iff _ _ _ _ _).mp ha
          refine ⟨hres.1.symm, Or.inr ⟨pre, bad, post, args, t1, stop, hes, hpre, hbad, ?_⟩⟩
          rw [← hres.2, hst]
          rfl

/-- C9: when the callee is declared with the number of parameters of the call,
the arguments `pre` lower to values in order and the next argument `bad`
lowers to NULL, `genFunctionCall` returns NULL in the state that the lowering
of `bad` left, with one error message added: no call instruction is built, and
the arguments `post` after `bad` are not lowered. -/
theorem genFunctionCall_stops_at_failing_argument (env : Env)
    (self self1 stop : LLVMCodeGenerator) (funcName : String) (rest : List String)
    (pre post : List Expression) (bad : Expression) (args : List LLVMValueRef)
    (hdecl : calleeDeclared self.module funcName (pre ++ bad :: post).length = true)
    (hpre : LowersAll env self pre args self1)
    (hbad : genExpression env self1 bad = .ok (none, stop)) :
    genFunctionCall env self (.mk (funcName :: rest) (pre ++ bad :: post)) =
        .ok (none, genError stop ("Could not evaluate argument in function call " ++ funcName)) ∧
      (genError stop ("Could not evaluate argument in function call " ++ funcName)).builder =
        stop.builder := by
  refine ⟨?_, rfl⟩
  rw [genFunctionCall_of_declared env self funcName rest _ hdecl,
    (genArguments_none_iff env funcName _ self _).mpr
      ⟨pre, bad, post, args, self1, stop, rfl, hpre, hbad, rfl⟩]

/-- C9 at a concrete call: `f` has three parameters, and in `f(1, g(), 3)` the
second argument calls the undeclared `g`. -/
theorem genFunctionCall_stops_at_failing_argument_witness :
    genFunctionCall exampleEnv (generatorWithF3)
        (.mk ["f"] ([intLiteral 1] ++ callExpr "g" [] :: [intLiteral 3])) =
        .ok (none, genError
          (genError (generatorWithF3)
            "Function not found in module")
          ("Could not evaluate argument in function call " ++ "f")) ∧
      (genError
          (genError (generatorWithF3)
            "Function not found in module")
          ("Could not evaluate argument in function call " ++ "f")).builder =
        (genError (generatorWithF3)
            "Function not found in module").builder :=
  genFunctionCall_stops_at_failing_argument exampleEnv
    (generatorWithF3)
    (generatorWithF3)
    (genError (generatorWithF3)
      "Function not found in module")
    "f" [] [intLiteral 1] [intLiteral 3] (callExpr "g" []) [int32Const 1]
    (by rfl) (LowersAll.cons (by rfl) (LowersAll.nil _)) (by rfl)

/-! ### Binary expressions -/

/-- The right operand of a binary expression is never read: the run of
`genBinaryExpression` is the same whatever the right operand is. -/
theorem genBinaryExpression_ignores_rhand (env : Env) (self : LLVMCodeGenerator)
    (lhand rhand other : Expression) (binaryOp : String) :
    genBinaryExpression env self (.mk lhand binaryOp rhand) =
      genBinaryExpression env self (.mk lhand binaryOp other) := by
  simp only [genBinaryExpression]

/-- C2 fails on the code: lowering `add(a : int, b : int) : int` with the body
`return a + b` builds an add whose two operands are both the parameter `a`; the
right operand `b` is not lowered. -/
theorem genFunctionDecl_add_operands :
    ∃ self1, genFunctionDecl exampleEnv startGenerator addDecl =
        .ok (some (.function "add"), self1) ∧
      self1.builder.built =
        [(some { fn := "add", index := 0 },
            .binary .LLVMAdd (some (.param "add" 0)) (some (.param "add" 0)) "add"),
         (some { fn := "add", index := 0 }, .ret (some (.instruction 0)))] ∧
      hashmap_get self1.namedValues "b" =
        some { name := "b", value := some (.param "add" 1) } :=
  ⟨_, rfl, rfl, rfl⟩

/-- C3 fails on the code: lowering `fadd(a : f32, b : f32) : f32` with the body
`return a + b`, where both operands are parameters of the type `float`, builds
the integer instruction `add`, not `fadd`. -/
theorem genFunctionDecl_fadd_opcode :
    ∃ self1, genFunctionDecl exampleEnv startGenerator faddDecl =
        .ok (some (.function "fadd"), self1) ∧
      self1.builder.built =
        [(some { fn := "fadd", index := 0 },
            .binary .LLVMAdd (some (.param "fadd" 0)) (some (.param "fadd" 0)) "add"),
         (some { fn := "fadd", index := 0 }, .ret (some (.instruction 0)))] ∧
      isFloatingType (LLVMTypeOf self1.module (some (.param "fadd" 0))) = true ∧
      isFloatingType (LLVMTypeOf self1.module (some (.param "fadd" 1))) = true :=
  ⟨_, rfl, rfl, rfl, rfl⟩

/-! ### Variable declarations at global scope -/

theorem LLVMCodeGenerator.report_nil (s : LLVMCodeGenerator) : s.report [] = s := by
  simp [LLVMCodeGenerator.report]

/-- The call of `genType` returns, and changes the state by error messages only. -/
theorem genType_report (env : Env) (s : LLVMCodeGenerator) (type : AstType) :
    ∃ v msgs, genType env s type = .ok (v, s.report msgs) := by
  cases type with
  | typeNameNode typeName =>
    simp only [genType, genTypeName]
    split
    · split
      · exact ⟨_, [], by rw [LLVMCodeGenerator.report_nil]⟩
      · exact ⟨_, [], by rw [LLVMCodeGenerator.report_nil]⟩
    · exact ⟨_, _, rfl⟩
  | typeLitNode typeLit => exact ⟨_, [], by rw [LLVMCodeGenerator.report_nil]; rfl⟩
  | otherNode => exact ⟨_, [], by rw [LLVMCodeGenerator.report_nil]; rfl⟩

/-- The run of `genVariableDecl` at global scope when the initializer lowers to
a value: one global is added after the globals that the lowering of the
initializer left, with no initializer set. -/
theorem genVariableDecl_global_some (env : Env) (self self1 : LLVMCodeGenerator)
    (decl : VariableDecl) (init : Expression) (v : LLVMValue)
    (hscope : self.currentSourceFile.scope = env.GLOBAL_SCOPE)
    (hexpr : decl.expr = some init)
    (hinit : genExpression env self init = .ok (some v, self1)) :
    ∃ self2 type, genVariableDecl env self decl =
        .ok (env.indeterminate .genVariableDecl, self2) ∧
      self2.module.functions = self1.module.functions ∧
      self2.module.globals = self1.module.globals ++
        [{ name := decl.name, type := type, linkage := .LLVMExternalLinkage,
           isGlobalConstant := !decl.mutable, initializer := none }] := by
  obtain ⟨type, msgs, htype⟩ := genType_report env self1 decl.type
  refine ⟨(self1.report msgs).setModule (LLVMSetGlobalConstant
      (LLVMAddGlobal (self1.report msgs).module type decl.name).2
      (LLVMAddGlobal (self1.report msgs).module type decl.name).1 (!decl.mutable)),
    type, ?_, ?_, ?_⟩
  · simp only [genVariableDecl, hscope, hexpr, hinit, htype, if_true, Option.isSome_some]
  · simp [LLVMCodeGenerator.setModule, LLVMCodeGenerator.module, LLVMCodeGenerator.report,
      LLVMSetGlobalConstant, LLVMAddGlobal, LLVMModule.updateGlobal]
  · simp [LLVMCodeGenerator.setModule, LLVMCodeGenerator.module, LLVMCodeGenerator.report,
      LLVMSetGlobalConstant, LLVMAddGlobal, LLVMModule.updateGlobal, List.modify_append_length]

/-- C4: at global scope, when the initializer lowers to a value,
`genVariableDecl` returns and has added to the module, after the globals that
the lowering of the initializer left, one global: its name is the name of the
declaration and its constant flag is the negation of the mutable flag. -/
theorem genVariableDecl_global_constant_flag (env : Env) (self self1 : LLVMCodeGenerator)
    (decl : VariableDecl) (init : Expression) (v : LLVMValue)
    (hscope : self.currentSourceFile.scope = env.GLOBAL_SCOPE)
    (hexpr : decl.expr = some init)
    (hinit : genExpression env self init = .ok (some v, self1)) :
    ∃ self2 g, genVariableDecl env self decl =
        .ok (env.indeterminate .genVariableDecl, self2) ∧
      self2.module.globals = self1.module.globals ++ [g] ∧
      g.name = decl.name ∧ g.isGlobalConstant = !decl.mutable := by
  obtain ⟨self2, type, hrun, _, hglobals⟩ :=
    genVariableDecl_global_some env self self1 decl init v hscope hexpr hinit
  exact ⟨self2, _, hrun, hglobals, rfl, rfl⟩

/-- C4 at the constant `x : int = 5`, declared at the start of the unit. -/
theorem genVariableDecl_global_constant_flag_witness :
    ∃ self2 g, genVariableDecl exampleEnv startGenerator constXDecl =
        .ok (exampleEnv.indeterminate .genVariableDecl, self2) ∧
      self2.module.globals = startGenerator.module.globals ++ [g] ∧
      g.name = constXDecl.name ∧ g.isGlobalConstant = !constXDecl.mutable :=
  genVariableDecl_global_constant_flag exampleEnv startGenerator startGenerator constXDecl
    (intLiteral 5) (.constInt (.intType 32) 5 false) (by rfl) (by rfl) (by rfl)

/-- C5 fails on the code: for the constant `x : int = 5` the initializer lowers
to the constant 5, and the global `x` that `genVariableDecl` adds has no
initializer. -/
theorem genVariableDecl_global_no_initializer :
    genExpression exampleEnv startGenerator (intLiteral 5) =
        .ok (int32Const 5, startGenerator) ∧
      genVariableDecl exampleEnv startGenerator constXDecl =
        .ok (none, startGenerator.setModule
          { name := "main", functions := [],
            globals := [{ name := "x", type := some (.typeHandle (.intType 32)),
                          linkage := .LLVMExternalLinkage, isGlobalConstant := true,
                          initializer := none }] }) :=
  ⟨rfl, rfl⟩

/-- C6: at global scope, when the initializer lowers to NULL, `genVariableDecl`
returns in the state that the lowering of the initializer left, with the error
message `Invalid expr` added: the module is the one that the lowering of the
initializer left, and the globals under the name of the declaration (a name
that is not empty) are those of the module before the call. -/
theorem genVariableDecl_global_invalid_expr (env : Env) (self self1 : LLVMCodeGenerator)
    (decl : VariableDecl) (init : Expression)
    (hscope : self.currentSourceFile.scope = env.GLOBAL_SCOPE)
    (hexpr : decl.expr = some init)
    (hinit : genExpression env self init = .ok (none, self1)) :
    genVariableDecl env self decl =
        .ok (env.indeterminate .genVariableDecl, genError self1 "Invalid expr") ∧
      (genError self1 "Invalid expr").errors = self1.errors ++ ["LLVM codegen: Invalid expr"] ∧
      (genError self1 "Invalid expr").module = self1.module ∧
      (genError self1 "Invalid expr").module.functions = self.module.functions ∧
      (decl.name ≠ "" →
        (genError self1 "Invalid expr").module.globals.filter (fun g => g.name == decl.name) =
          self.module.globals.filter (fun g => g.name == decl.name)) := by
  refine ⟨?_, rfl, rfl, ?_, ?_⟩
  · simp only [genVariableDecl, hscope, hexpr, hinit, if_true, Option.isSome_none,
      Bool.false_eq_true, if_false]
  · exact (genExpression_extends env self init none self1 hinit).functions
  · intro hname
    obtain ⟨extra, hextra, hnames⟩ := (genExpression_extends env self init none self1 hinit).globals
    show self1.module.globals.filter _ = _
    rw [hextra, List.filter_append]
    have : extra.filter (fun g => g.name == decl.name) = [] := by
      rw [List.filter_eq_nil_iff]
      intro g hg
      simp only [beq_iff_eq, hnames g hg]
      exact fun h => hname h.symm
    rw [this, List.append_nil]

/-- C6 at the constant `y : int = g()`, declared at the start of the unit,
where `g` is not declared. -/
theorem genVariableDecl_global_invalid_expr_witness :
    genVariableDecl exampleEnv startGenerator constYDecl =
        .ok (exampleEnv.indeterminate .genVariableDecl,
          genError (genError startGenerator "Function not found in module") "Invalid expr") ∧
      (genError (genError startGenerator "Function not found in module") "Invalid expr").errors =
        (genError startGenerator "Function not found in module").errors ++
          ["LLVM codegen: Invalid expr"] ∧
      (genError (genError startGenerator "Function not found in module") "Invalid expr").module =
        (genError startGenerator "Function not found in module").module ∧
      (genError (genError startGenerator "Function not found in module")
        "Invalid expr").module.functions = startGenerator.module.functions ∧
      (constYDecl.name ≠ "" →
        (genError (genError startGenerator "Function not found in module")
            "Invalid expr").module.globals.filter (fun g => g.name == constYDecl.name) =
          startGenerator.module.globals.filter (fun g => g.name == constYDecl.name)) :=
  genVariableDecl_global_invalid_expr exampleEnv startGenerator
    (genError startGenerator "Function not found in module") constYDecl (callExpr "g" [])
    (by rfl) (by rfl) (by rfl)

/-! ### Function signatures -/

/-- The first loop of `genFunctionSignature` returns the parameter types of the
specification when each declared type is a type name or a pointer to one. -/
theorem genParamTypes_spec (env : Env) (ps : List ParameterSection)
    (h : ∀ p ∈ ps, (paramTypeSpec env p.type).isSome = true) :
    ∃ tys msgs, genParamTypes env ps = .ok (tys, msgs) ∧
      tys.map some = ps.map (fun p => paramTypeSpec env p.type) := by
  induction ps with
  | nil => exact ⟨[], [], rfl, rfl⟩
  | cons p ps ih =>
    obtain ⟨tys, msgs, hrun, htys⟩ := ih (fun q hq => h q (List.mem_cons_of_mem p hq))
    have hp := h p (List.mem_cons_self p ps)
    obtain ⟨pname, ptype⟩ := p
    cases ptype with
    | typeNameNode typeName =>
      exact ⟨_, _, by simp only [genParamTypes, resolveParamName, hrun]; rfl,
        by simp [paramTypeSpec, htys]⟩
    | otherNode => simp [paramTypeSpec] at hp
    | typeLitNode typeLit =>
      cases typeLit with
      | otherNode => simp [paramTypeSpec] at hp
      | pointerTypeNode base =>
        cases base with
        | typeNameNode typeName =>
          exact ⟨_, _, by simp only [genParamTypes, resolveParamName, hrun]; rfl,
            by simp [paramTypeSpec, htys]⟩
        | otherNode => simp [paramTypeSpec] at hp
        | typeLitNode typeLit => simp [paramTypeSpec] at hp

/-- The parameter types found under a name are not changed by an update of the
functions that keeps names and parameter types. -/
theorem find_updateFunction (m : LLVMModule) (fn : LLVMValueRef)
    (g : LLVMFunction → LLVMFunction) (n : String)
    (hname : ∀ f, (g f).name = f.name) (hty : ∀ f, (g f).paramTypes = f.paramTypes) :
    ((m.updateFunction fn g).functions.find? (fun f => f.name == n)).map (fun f => f.paramTypes) =
      (m.functions.find? (fun f => f.name == n)).map (fun f => f.paramTypes) := by
  unfold LLVMModule.updateFunction
  split
  · rename_i name
    simp only
    induction m.functions with
    | nil => rfl
    | cons f fs ih =>
      simp only [List.map_cons, List.find?_cons]
      by_cases hf : f.name == name
      · simp only [hf, if_true, hname]
        cases hn : f.name == n
        · simpa using ih
        · simp [hty]
      · simp only [hf, Bool.false_eq_true, if_false]
        cases hn : f.name == n
        · simpa using ih
        · simp
  · rfl

theorem find_bindParams (func : LLVMValueRef) (n : String) (ps : List ParameterSection) :
    ∀ (self : LLVMCodeGenerator) (i : Nat),
      ((bindParams self func i ps).module.functions.find? (fun f => f.name == n)).map
          (fun f => f.paramTypes) =
        (self.module.functions.find? (fun f => f.name == n)).map (fun f => f.paramTypes) := by
  induction ps with
  | nil => intro self i; rfl
  | cons p ps ih =>
    intro self i
    simp only [bindParams]
    rw [ih]
    simp only [LLVMCodeGenerator.module, LLVMCodeGenerator.setModule, LLVMSetValueName]
    split
    · exact find_updateFunction _ _ _ n (fun _ => rfl) (fun _ => rfl)
    · rfl

/-- C7: when no function of the name of the signature is in the module, each
declared parameter type is a type name or a pointer to a type name, and the
declared return type is a type name, `genFunctionSignature` returns the handle
of the function, and the function found in the module under that name has, in
order, the parameter types of the specification: pointer to
`getLLVMType` of the named base type for a pointer, `getLLVMType` of the named
type otherwise. -/
theorem genFunctionSignature_param_types (env : Env) (self : LLVMCodeGenerator)
    (signature : FunctionSignature) (body : List Statement) (isPrototype : Bool)
    (returnType : TypeName)
    (hnew : self.module.functions.find? (fun f => f.name == signature.name) = none)
    (hparams : ∀ p ∈ signature.paramList, (paramTypeSpec env p.type).isSome = true)
    (hret : signature.type = .typeNameNode returnType) :
    ∃ self1 f, genFunctionSignature env self (.mk signature body isPrototype) =
        .ok (some (.function signature.name), self1) ∧
      self1.module.getFunction (some (.function signature.name)) = some f ∧
      f.paramTypes.map some = signature.paramList.map (fun p => paramTypeSpec env p.type) := by
  obtain ⟨tys, msgs, hrun, htys⟩ := genParamTypes_spec env signature.paramList hparams
  have hfunc : LLVMGetNamedFunction self.module signature.name = none := by
    simp [LLVMGetNamedFunction, hnew]
  have hres : ∃ self1, genFunctionSignature env self (.mk signature body isPrototype) =
        .ok (some (.function signature.name), self1) ∧
      (self1.module.functions.find? (fun f => f.name == signature.name)).map
        (fun f => f.paramTypes) = some tys := by
    simp only [genFunctionSignature, FunctionDecl.signature, hfunc, hrun, hret,
      Option.isSome_none, Bool.false_eq_true, if_false, LLVMAddFunction]
    refine ⟨_, rfl, ?_⟩
    rw [find_bindParams]
    split
    · simp only [LLVMCodeGenerator.module, LLVMCodeGenerator.setModule, LLVMSetLinkage]
      refine Eq.trans (find_updateFunction _ _ _ _ (fun _ => rfl) (fun _ => rfl)) ?_
      simp [LLVMCodeGenerator.report, LLVMFunctionType, List.find?_append,
        show self.currentSourceFile.module.functions.find?
          (fun f => f.name == signature.name) = none from hnew]
    · simp [LLVMCodeGenerator.module, LLVMCodeGenerator.setModule,
        LLVMCodeGenerator.report, LLVMFunctionType, List.find?_append,
        show self.currentSourceFile.module.functions.find?
          (fun f => f.name == signature.name) = none from hnew]
  obtain ⟨self1, hself1, hfind⟩ := hres
  cases hf : self1.module.functions.find? (fun f => f.name == signature.name) with
  | none => simp [hf] at hfind
  | some f =>
    refine ⟨self1, f, hself1, hf, ?_⟩
    simp only [hf, Option.map_some', Option.some.injEq] at hfind
    rw [hfind, htys]

/-- C7 at the signature `p(a : int, b : ^f32) : int`, declared at the start of
the unit: the parameter types are `i32` and pointer to `float`. -/
theorem genFunctionSignature_param_types_witness :
    ∃ self1 f, genFunctionSignature exampleEnv startGenerator (.mk pointerParamSignature [] true) =
        .ok (some (.function pointerParamSignature.name), self1) ∧
      self1.module.getFunction (some (.function pointerParamSignature.name)) = some f ∧
      f.paramTypes.map some =
        pointerParamSignature.paramList.map (fun p => paramTypeSpec exampleEnv p.type) :=
  genFunctionSignature_param_types exampleEnv startGenerator pointerParamSignature [] true
    { name := "int", dataType := .INT_TYPE } (by rfl) (by decide) (by rfl)

/-- The run of `genFunctionSignature` when the function found under the name of
the signature has another number of parameters. -/
theorem genFunctionSignature_mismatch_run (env : Env) (self : LLVMCodeGenerator)
    (decl : FunctionDecl) (f : LLVMFunction)
    (hfound : self.module.functions.find? (fun g => g.name == decl.signature.name) = some f)
    (hcount : f.paramTypes.length ≠ decl.signature.paramList.length) :
    genFunctionSignature env self decl =
      .ok (none, genError self "Function exists with different function signature") := by
  have hfunc : LLVMGetNamedFunction self.module decl.signature.name =
      some (.function decl.signature.name) := by
    simp [LLVMGetNamedFunction, hfound]
  have hn : LLVMCountParams self.module (some (.function decl.signature.name)) =
      f.paramTypes.length := by
    simp [LLVMCountParams, LLVMModule.getFunction, hfound]
  simp [genFunctionSignature, hfunc, hn, hcount]

/-- C8: when the function found in the module under the name of the signature
has a number of parameters that is not the number of declared parameters,
`genFunctionSignature` returns NULL and adds the signature error to the error
messages; the source file with its module (so the function found under the
name too), the named values and the builder are unchanged. -/
theorem genFunctionSignature_arity_mismatch (env : Env) (self : LLVMCodeGenerator)
    (decl : FunctionDecl) (f : LLVMFunction)
    (hfound : self.module.functions.find? (fun g => g.name == decl.signature.name) = some f)
    (hcount : f.paramTypes.length ≠ decl.signature.paramList.length) :
    ∃ self1, genFunctionSignature env self decl = .ok (none, self1) ∧
      self1.errors = self.errors ++
        ["LLVM codegen: Function exists with different function signature"] ∧
      self1.currentSourceFile = self.currentSourceFile ∧
      self1.module.functions.find? (fun g => g.name == decl.signature.name) = some f ∧
      self1.namedValues = self.namedValues ∧
      self1.builder = self.builder :=
  ⟨genError self "Function exists with different function signature",
    genFunctionSignature_mismatch_run env self decl f hfound hcount, rfl, rfl, hfound, rfl, rfl⟩

/-- C8 at the declaration `f() : int` after the prototype `f(a : int) : int`. -/
theorem genFunctionSignature_arity_mismatch_witness :
    ∃ self1, genFunctionSignature exampleEnv generatorWithF fNoParamsDecl = .ok (none, self1) ∧
      self1.errors = generatorWithF.errors ++
        ["LLVM codegen: Function exists with different function signature"] ∧
      self1.currentSourceFile = generatorWithF.currentSourceFile ∧
      self1.module.functions.find? (fun g => g.name == fNoParamsDecl.signature.name) =
        some (intFunction "f" ["a"]) ∧
      self1.namedValues = generatorWithF.namedValues ∧
      self1.builder = generatorWithF.builder :=
  genFunctionSignature_arity_mismatch exampleEnv generatorWithF fNoParamsDecl
    (intFunction "f" ["a"]) (by rfl) (by decide)

/-! ### Function declarations -/

/-- The generator `generatorWithF` is reached by lowering the prototype
`f(a : int) : int` at the start of the unit. -/
theorem generatorWithF_reached :
    genFunctionDecl exampleEnv startGenerator (intPrototype "f" ["a"]) =
      .ok (some (.function "f"), generatorWithF) := by
  rfl

/-- The generator `generatorWithF3` is reached by lowering the prototype
`f(a : int, b : int, c : int) : int` at the start of the unit. -/
theorem generatorWithF3_reached :
    genFunctionDecl exampleEnv startGenerator (intPrototype "f" ["a", "b", "c"]) =
      .ok (some (.function "f"), generatorWithF3) := by
  rfl

/-- C10 fails on the code: after the prototype `f(a : int) : int` the scope is
0; lowering the declaration `f() : int` then fails in `genFunctionSignature`,
and `genFunctionDecl` returns NULL with the scope left at 1. -/
theorem genFunctionDecl_scope_after_failure :
    generatorWithF.currentSourceFile.scope = 0 ∧
      genFunctionDecl exampleEnv generatorWithF fNoParamsDecl =
        .ok (none, genError (genError (generatorWithF.setScope 1)
          "Function exists with different function signature") "hmm") ∧
      (genError (genError (generatorWithF.setScope 1)
          "Function exists with different function signature") "hmm").currentSourceFile.scope
        = 1 :=
  ⟨rfl, rfl, rfl⟩

/-- Whenever the function found under the name of the declaration has another
number of parameters, `genFunctionDecl` returns NULL with the scope one above
the scope before the call. -/
theorem genFunctionDecl_mismatch_scope (env : Env) (self : LLVMCodeGenerator)
    (decl : FunctionDecl) (f : LLVMFunction)
    (hfound : self.module.functions.find? (fun g => g.name == decl.signature.name) = some f)
    (hcount : f.paramTypes.length ≠ decl.signature.paramList.length) :
    ∃ self1, genFunctionDecl env self decl = .ok (none, self1) ∧
      self1.currentSourceFile.scope = self.currentSourceFile.scope + 1 := by
  obtain ⟨signature, body, isPrototype⟩ := decl
  have hrun := genFunctionSignature_mismatch_run env
    (self.setScope (self.currentSourceFile.scope + 1)) (.mk signature body isPrototype) f
    hfound hcount
  exact ⟨genError (genError (self.setScope (self.currentSourceFile.scope + 1))
      "Function exists with different function signature") "hmm",
    by simp only [genFunctionDecl, hrun, Option.isNone_none, if_true], rfl⟩

/-! ### The type mapper -/

/-- The native integer type is never NULL. -/
theorem getIntType_ne_null (env : Env) : getIntType env ≠ .null := by
  unfold getIntType
  split <;> simp [LLVMInt16Type, LLVMInt32Type, LLVMInt64Type]

/-- C13: `getLLVMType` returns NULL exactly for `UNKNOWN_TYPE`, and it writes an
error message exactly for `UNKNOWN_TYPE`; for every other tag it returns a type
and writes nothing. -/
theorem getLLVMType_null_iff (env : Env) (type : DataType) :
    ((getLLVMType env type).1 = .null ↔ type = .UNKNOWN_TYPE) ∧
      ((getLLVMType env type).2 ≠ [] ↔ type = .UNKNOWN_TYPE) ∧
      (type ≠ .UNKNOWN_TYPE → (getLLVMType env type).2 = []) := by
  have h := getIntType_ne_null env
  cases type <;>
    simp [getLLVMType, LLVMIntType, LLVMInt1Type, LLVMInt8Type, LLVMInt16Type, LLVMInt32Type,
      LLVMInt64Type, LLVMFloatType, LLVMDoubleType, LLVMFP128Type, LLVMVoidType, h]

/-- C14, as it is stated, fails: for a host whose `int` has 3 bytes `getIntType`
returns the 16-bit integer type. -/
theorem getIntType_three_bytes :
    getIntType { exampleEnv with sizeofInt := 3 } = LLVMInt16Type := by
  rfl

/-- C14, amended: `getIntType` returns the 16-, 32- or 64-bit integer type for
the sizes 2, 4 and 8, and for every other size it returns the 16-bit integer
type. -/
theorem getIntType_by_size (env : Env) :
    (env.sizeofInt = 2 → getIntType env = LLVMIntType 16) ∧
      (env.sizeofInt = 4 → getIntType env = LLVMIntType 32) ∧
      (env.sizeofInt = 8 → getIntType env = LLVMIntType 64) ∧
      (env.sizeofInt ≠ 2 ∧ env.sizeofInt ≠ 4 ∧ env.sizeofInt ≠ 8 →
        getIntType env = LLVMIntType 16) := by
  refine ⟨fun h => by simp [getIntType, h, LLVMInt16Type, LLVMIntType],
    fun h => by simp [getIntType, h, LLVMInt32Type, LLVMIntType],
    fun h => by simp [getIntType, h, LLVMInt64Type, LLVMIntType], ?_⟩
  rintro ⟨h2, h4, h8⟩
  unfold getIntType
  split
  · exact absurd ‹_› h2
  · exact absurd ‹_› h4
  · exact absurd ‹_› h8
  · rfl

/-- C20: the signed and the unsigned tag of each width map to the integer type
of that width, and the byte tag maps to the 1-bit integer type of the bool tag,
which is not the 8-bit type. -/
theorem getLLVMType_signedness_and_byte (env : Env) :
    (getLLVMType env .INT_8_TYPE).1 = LLVMIntType 8 ∧
      (getLLVMType env .UINT_8_TYPE).1 = LLVMIntType 8 ∧
      (getLLVMType env .INT_16_TYPE).1 = LLVMIntType 16 ∧
      (getLLVMType env .UINT_16_TYPE).1 = LLVMIntType 16 ∧
      (getLLVMType env .INT_32_TYPE).1 = LLVMIntType 32 ∧
      (getLLVMType env .UINT_32_TYPE).1 = LLVMIntType 32 ∧
      (getLLVMType env .INT_64_TYPE).1 = LLVMIntType 64 ∧
      (getLLVMType env .UINT_64_TYPE).1 = LLVMIntType 64 ∧
      (getLLVMType env .INT_128_TYPE).1 = LLVMIntType 128 ∧
      (getLLVMType env .UINT_128_TYPE).1 = LLVMIntType 128 ∧
      (getLLVMType env .BYTE_TYPE).1 = LLVMIntType 1 ∧
      (getLLVMType env .BOOL_TYPE).1 = LLVMIntType 1 ∧
      (getLLVMType env .BYTE_TYPE).1 = (getLLVMType env .BOOL_TYPE).1 ∧
      (getLLVMType env .BYTE_TYPE).1 ≠ LLVMIntType 8 := by
  simp [getLLVMType, LLVMIntType, LLVMInt1Type, LLVMInt8Type, LLVMInt16Type, LLVMInt32Type,
    LLVMInt64Type]

/-! ### Failing operands, return statements -/

/-- C18 fails on the code: in `g() + 1`, where `g` is not declared, the operand
lowers to NULL; `genBinaryExpression` writes the error, then builds the add
with NULL operands and returns the handle of that instruction. -/
theorem genBinaryExpression_null_operand :
    genExpression exampleEnv startGenerator (callExpr "g" []) =
        .ok (none, genError startGenerator "Function not found in module") ∧
      genBinaryExpression exampleEnv startGenerator (.mk (callExpr "g" []) "+" (intLiteral 1)) =
        .ok (some (.instruction 0),
          { startGenerator with
            builder := { insertBlock := none,
                         built := [(none, .binary .LLVMAdd none none "add")] },
            errors := ["LLVM codegen: Function not found in module",
                       "LLVM codegen: Function not found in module",
                       "LLVM codegen: Invalid expression"] }) :=
  ⟨rfl, rfl⟩

/-- For a return statement without an expression, `genLeaveStatNode` returns
after building one return instruction without an operand; for a return
statement whose expression lowers to the handle `v`, NULL or not, it returns
after building, in the state that the lowering left, one return instruction
with the operand `v`. -/
theorem genLeaveStatNode_builds_one_return (env : Env) (self : LLVMCodeGenerator) :
    genLeaveStatNode env self (.returnStatNode none) =
        .ok (env.indeterminate .genLeaveStatNode,
          self.setBuilder { self.builder with
            built := self.builder.built ++ [(self.builder.insertBlock, .ret none)] }) ∧
      ∀ (e : Expression) (v : LLVMValueRef) (self1 : LLVMCodeGenerator),
        genExpression env self e = .ok (v, self1) →
        genLeaveStatNode env self (.returnStatNode (some e)) =
          .ok (env.indeterminate .genLeaveStatNode,
            self1.setBuilder { self1.builder with
              built := self1.builder.built ++ [(self1.builder.insertBlock, .ret v)] }) := by
  refine ⟨rfl, ?_⟩
  intro e v self1 h
  simp only [genLeaveStatNode, h]
  rfl

/-! ### Bindings of parameters -/

/-- C15 fails on the code: after the prototype `f(a : int) : int`, the
declaration `f(x : int) : int` has the parameter count of the existing `f`;
`genFunctionSignature` returns the function and leaves the state as it was, and
the name `x` is not bound. -/
theorem genFunctionSignature_existing_not_bound :
    genFunctionSignature exampleEnv generatorWithF fRenamedDecl =
        .ok (some (.function "f"), generatorWithF) ∧
      hashmap_get generatorWithF.namedValues "x" = none ∧
      LLVMGetParam (some (.function "f")) 0 = some (.param "f" 0) :=
  ⟨rfl, rfl, rfl⟩

/-! ### Bindings are kept -/

theorem lookup_filter_ne (map : Hashmap) (key name : String) (h : name ≠ key) :
    List.lookup name (map.filter (fun kv => kv.1 != key)) = List.lookup name map := by
  induction map with
  | nil => rfl
  | cons kv rest ih =>
    obtain ⟨k, v⟩ := kv
    by_cases hk : k = key
    · subst hk
      have hne : (name == k) = false := by simpa using h
      simp [List.filter_cons, List.lookup_cons, hne, ih]
    · have hk2 : (k != key) = true := by simpa using hk
      simp only [List.filter_cons, hk2, if_true, List.lookup_cons, ih]

/-- A lookup after `hashmap_put`: the value put for the key, the old entry for
another name. -/
theorem hashmap_get_put (map : Hashmap) (key name : String) (value : VariableReference) :
    hashmap_get (hashmap_put map key value) name =
      if name = key then some value else hashmap_get map name := by
  unfold hashmap_get hashmap_put
  by_cases h : name = key
  · subst h; simp [List.lookup_cons]
  · have hne : (name == key) = false := by simpa using h
    simp [List.lookup_cons, hne, h, lookup_filter_ne map key name h]

theorem keepsBindings_refl (s : LLVMCodeGenerator) : KeepsBindings s s :=
  fun _ h => h

theorem keepsBindings_trans {s t u : LLVMCodeGenerator} (h1 : KeepsBindings s t)
    (h2 : KeepsBindings t u) : KeepsBindings s u :=
  fun name h => h2 name (h1 name h)

theorem keepsBindings_of_eq {s t : LLVMCodeGenerator} (h : t.namedValues = s.namedValues) :
    KeepsBindings s t := by
  intro name hn
  rw [h]; exact hn

theorem keepsBindings_put (s : LLVMCodeGenerator) (key : String) (value : VariableReference) :
    KeepsBindings s { s with namedValues := hashmap_put s.namedValues key value } := by
  intro name hn
  simp only [hashmap_get_put]
  split
  · rfl
  · exact hn

/-- The second loop of `genFunctionSignature` keeps the bindings, and binds the
name of every parameter. -/
theorem bindParams_bindings (func : LLVMValueRef) (ps : List ParameterSection) :
    ∀ (self : LLVMCodeGenerator) (i : Nat),
      KeepsBindings self (bindParams self func i ps) ∧
        ∀ p ∈ ps, (hashmap_get (bindParams self func i ps).namedValues p.name).isSome = true := by
  induction ps with
  | nil => intro self i; exact ⟨keepsBindings_refl _, by simp⟩
  | cons q rest ih =>
    intro self i
    simp only [bindParams]
    obtain ⟨hk, hb⟩ := ih
      { self.setModule (LLVMSetValueName self.module (LLVMGetParam func i) q.name) with
        namedValues := hashmap_put
          (self.setModule (LLVMSetValueName self.module (LLVMGetParam func i) q.name)).namedValues
          q.name { createVariableRef q.name with value := LLVMGetParam func i } } (i + 1)
    have hput : KeepsBindings self
        { self.setModule (LLVMSetValueName self.module (LLVMGetParam func i) q.name) with
          namedValues := hashmap_put
            (self.setModule (LLVMSetValueName self.module (LLVMGetParam func i) q.name)).namedValues
            q.name { createVariableRef q.name with value := LLVMGetParam func i } } := by
      intro name hn
      simp only [hashmap_get_put]
      split
      · rfl
      · exact hn
    refine ⟨keepsBindings_trans hput hk, ?_⟩
    intro p hp
    rcases List.mem_cons.mp hp with h | h
    · subst h
      apply hk
      simp [hashmap_get_put]
    · exact hb p h

/-- When `genFunctionSignature` returns, the bindings are kept; when the
function is new, the name of every parameter is bound. -/
theorem genFunctionSignature_bindings (env : Env) (self self1 : LLVMCodeGenerator)
    (decl : FunctionDecl) (r : LLVMValueRef)
    (h : genFunctionSignature env self decl = .ok (r, self1)) :
    KeepsBindings self self1 ∧
      (LLVMGetNamedFunction self.module decl.signature.name = none →
        ∀ p ∈ decl.signature.paramList,
          (hashmap_get self1.namedValues p.name).isSome = true) := by
  unfold genFunctionSignature at h
  simp only at h
  split at h
  · rename_i hsome
    have hk : KeepsBindings self self1 := by
      split at h <;> cases h <;> exact keepsBindings_of_eq rfl
    refine ⟨hk, fun hnone => ?_⟩
    rw [hnone] at hsome
    simp at hsome
  · cases hp : genParamTypes env decl.signature.paramList with
    | error e => simp [hp] at h
    | ok r1 =>
      obtain ⟨params, msgs⟩ := r1
      simp only [hp] at h
      split at h
      · cases h
        rename_i typeName _
        have hb := bindParams_bindings
          (LLVMAddFunction ((self.report msgs).report
              (getLLVMType env (env.getTypeFromString typeName.name)).2).module
            decl.signature.name
            (LLVMFunctionType (getLLVMType env (env.getTypeFromString typeName.name)).1
              params false)).1
          decl.signature.paramList
        split
        · refine ⟨keepsBindings_trans ?_ (hb _ 0).1, fun _ => (hb _ 0).2⟩
          exact keepsBindings_of_eq rfl
        · refine ⟨keepsBindings_trans ?_ (hb _ 0).1, fun _ => (hb _ 0).2⟩
          exact keepsBindings_of_eq rfl
      · cases h

theorem genVariableDecl_bindings (env : Env) (self self1 : LLVMCodeGenerator)
    (decl : VariableDecl) (r : LLVMValueRef)
    (h : genVariableDecl env self decl = .ok (r, self1)) : KeepsBindings self self1 := by
  unfold genVariableDecl at h
  simp only at h
  split at h
  · split at h
    · cases h
    · rename_i init _
      cases h1 : genExpression env self init with
      | error e => simp [h1] at h
      | ok r1 =>
        obtain ⟨expr, s1⟩ := r1
        have e1 := (genExpression_extends env self init expr s1 h1).namedValues
        simp only [h1] at h
        split at h
        · obtain ⟨type, msgs, htype⟩ := genType_report env s1 decl.type
          simp only [htype] at h
          cases h
          exact keepsBindings_of_eq e1
        · cases h
          exact keepsBindings_of_eq e1
  · obtain ⟨type, msgs, htype⟩ := genType_report env self decl.type
    simp only [htype] at h
    split at h
    · cases h
      exact keepsBindings_put _ _ _
    · rename_i init _
      split at h
      · cases h
      · rename_i value s4 h4
        cases h
        have e4 := (genExpression_extends env _ init value s4 h4).namedValues
        exact keepsBindings_trans (keepsBindings_put _ _ _) (keepsBindings_of_eq e4)

theorem genLeaveStatNode_bindings (env : Env) (self self1 : LLVMCodeGenerator)
    (leave : LeaveStat) (r : LLVMValueRef)
    (h : genLeaveStatNode env self leave = .ok (r, self1)) : KeepsBindings self self1 := by
  unfold genLeaveStatNode at h
  split at h
  · cases h; exact keepsBindings_of_eq rfl
  · rename_i e
    cases h1 : genExpression env self e with
    | error err => simp [h1] at h
    | ok r1 =>
      obtain ⟨expr, s1⟩ := r1
      simp only [h1] at h
      cases h
      exact keepsBindings_of_eq (genExpression_extends env self e expr s1 h1).namedValues
  · cases h; exact keepsBindings_refl _

mutual
theorem genStatement_bindings (env : Env) (s : LLVMCodeGenerator) :
    (stmt : Statement) → ∀ r t, genStatement env s stmt = .ok (r, t) → KeepsBindings s t
  | .unstructuredStatementNode u, r, t, h => by
    rw [genStatement] at h
    exact genUnstructuredStatementNode_bindings env s u r t h
  | .structuredStatementNode _, r, t, h => by
    rw [genStatement] at h
    cases h; exact keepsBindings_refl _
  | .macroNode, r, t, h => by
    rw [genStatement] at h
    cases h; exact keepsBindings_of_eq rfl
  | .unknownNode, r, t, h => by
    rw [genStatement] at h
    cases h; exact keepsBindings_of_eq rfl
theorem genUnstructuredStatementNode_bindings (env : Env) (s : LLVMCodeGenerator) :
    (u : UnstructuredStatement) → ∀ r t,
      genUnstructuredStatementNode env s u = .ok (r, t) → KeepsBindings s t
  | .declarationNode decl, r, t, h => by
    rw [genUnstructuredStatementNode] at h
    exact genDeclaration_bindings env s decl r t h
  | .exprStatNode expr, r, t, h => by
    rw [genUnstructuredStatementNode] at h
    exact keepsBindings_of_eq (genExpression_extends env s expr r t h).namedValues
  | .leaveStatNode leave, r, t, h => by
    rw [genUnstructuredStatementNode] at h
    exact genLeaveStatNode_bindings env s t leave r h
  | .functionCallNode call, r, t, h => by
    rw [genUnstructuredStatementNode] at h
    exact keepsBindings_of_eq (genFunctionCall_extends env s call r t h).namedValues
  | .otherNode, r, t, h => by
    rw [genUnstructuredStatementNode] at h
    cases h; exact keepsBindings_refl _
theorem genDeclaration_bindings (env : Env) (s : LLVMCodeGenerator) :
    (decl : Declaration) → ∀ r t, genDeclaration env s decl = .ok (r, t) → KeepsBindings s t
  | .functionDeclNode funcDecl, r, t, h => by
    rw [genDeclaration] at h
    exact genFunctionDecl_bindings env s funcDecl r t h
  | .variableDeclNode varDecl, r, t, h => by
    rw [genDeclaration] at h
    exact genVariableDecl_bindings env s t varDecl r h
  | .otherNode, r, t, h => by
    rw [genDeclaration] at h
    cases h; exact keepsBindings_refl _
theorem genFunctionDecl_bindings (env : Env) (s : LLVMCodeGenerator) :
    (decl : FunctionDecl) → ∀ r t, genFunctionDecl env s decl = .ok (r, t) → KeepsBindings s t
  | .mk signature body isPrototype, r, t, h => by
    simp only [genFunctionDecl] at h
    cases h1 : genFunctionSignature env (s.setScope (s.currentSourceFile.scope + 1))
        (.mk signature body isPrototype) with
    | error e => simp [h1] at h
    | ok r1 =>
      obtain ⟨prototype, s2⟩ := r1
      have k1 : KeepsBindings s s2 :=
        keepsBindings_trans (keepsBindings_of_eq rfl)
          (genFunctionSignature_bindings env _ s2 _ prototype h1).1
      simp only [h1] at h
      split at h
      · cases h; exact keepsBindings_trans k1 (keepsBindings_of_eq rfl)
      split at h
      · cases h; exact keepsBindings_trans k1 (keepsBindings_of_eq rfl)
      · cases h3 : genStatements env ((s2.setModule (LLVMAppendBasicBlock s2.module prototype
            "entry").2).setBuilder (LLVMPositionBuilderAtEnd s2.builder
              (LLVMAppendBasicBlock s2.module prototype "entry").1)) body with
        | error e => simp [h3] at h
        | ok s4 =>
          simp only [h3] at h
          cases h
          have k3 := genStatements_bindings env _ body s4 h3
          exact keepsBindings_trans k1 (keepsBindings_trans
            (keepsBindings_trans (keepsBindings_of_eq rfl) k3) (keepsBindings_of_eq rfl))
theorem genStatements_bindings (env : Env) (s : LLVMCodeGenerator) :
    (stmts : List Statement) → ∀ t, genStatements env s stmts = .ok t → KeepsBindings s t
  | [], t, h => by
    simp only [genStatements] at h
    cases h; exact keepsBindings_refl _
  | stmt :: rest, t, h => by
    simp only [genStatements] at h
    cases h1 : genStatement env s stmt with
    | error e => simp [h1] at h
    | ok r1 =>
      obtain ⟨r, s1⟩ := r1
      simp only [h1] at h
      exact keepsBindings_trans (genStatement_bindings env s stmt r s1 h1)
        (genStatements_bindings env s1 rest t h)
end

/-- The parameters that `genFunctionSignature` bound for a new function are
still bound when `genFunctionDecl` returns. -/
theorem genFunctionDecl_params_bound (env : Env) (s t : LLVMCodeGenerator)
    (decl : FunctionDecl) (r : LLVMValueRef)
    (h : genFunctionDecl env s decl = .ok (r, t))
    (hnew : LLVMGetNamedFunction s.module decl.signature.name = none) :
    ∀ p ∈ decl.signature.paramList, (hashmap_get t.namedValues p.name).isSome = true := by
  obtain ⟨signature, body, isPrototype⟩ := decl
  simp only [genFunctionDecl] at h
  cases h1 : genFunctionSignature env (s.setScope (s.currentSourceFile.scope + 1))
      (.mk signature body isPrototype) with
  | error e => simp [h1] at h
  | ok r1 =>
    obtain ⟨prototype, s2⟩ := r1
    have hb := (genFunctionSignature_bindings env _ s2 _ prototype h1).2 hnew
    simp only [h1] at h
    intro p hp
    split at h
    · cases h; exact hb p hp
    split at h
    · cases h; exact hb p hp
    · cases h3 : genStatements env ((s2.setModule (LLVMAppendBasicBlock s2.module prototype
          "entry").2).setBuilder (LLVMPositionBuilderAtEnd s2.builder
            (LLVMAppendBasicBlock s2.module prototype "entry").1)) body with
      | error e => simp [h3] at h
      | ok s4 =>
        simp only [h3] at h
        cases h
        exact genStatements_bindings env _ body s4 h3 p.name (hb p hp)

/-- C12 fails on the code: in the unit `f(a : int) : int; f() : int; x : int = 5`
the second declaration fails and leaves the scope at 1, so `x` is lowered as a
local variable (an alloca and a store, no global); without the failing
declaration `x` is lowered as the global `x`, and the scope stays 0.  The
defect is the one of C10. -/
theorem traverseAST_after_failed_declaration :
    (traverseAST exampleEnv { startGenerator with abstractSyntaxTree := unitWithFailingDecl }).map
        (fun s => (s.module.globals, s.builder.built, s.currentSourceFile.scope)) =
      .ok ([],
        [(none, .alloca (some (.typeHandle (.intType 32))) "x"),
         (none, .store (int32Const 5) (some (.instruction 0)))], 1) ∧
    (traverseAST exampleEnv
        { startGenerator with abstractSyntaxTree := unitWithoutFailingDecl }).map
        (fun s => (s.module.globals, s.builder.built, s.currentSourceFile.scope)) =
      .ok ([globalX], [], 0) :=
  ⟨rfl, rfl⟩

/-- C11, as it is stated, fails: before `add(a : int, b : int) : int` is lowered
the name `a` is not bound; after `genFunctionDecl` has returned it is bound to
the first parameter of `add`, and it still is when the next unit is begun. -/
theorem genFunctionDecl_parameter_still_bound :
    ∃ self1, genFunctionDecl exampleEnv startGenerator addDecl =
        .ok (some (.function "add"), self1) ∧
      hashmap_get startGenerator.namedValues "a" = none ∧
      genTypeName exampleEnv self1 { name := "a", dataType := .UNKNOWN_TYPE } =
        .ok (some (.param "add" 0), self1) ∧
      genTypeName exampleEnv (beginSourceFile self1 (emptySourceFile "good"))
          { name := "a", dataType := .UNKNOWN_TYPE } =
        .ok (some (.param "add" 0), beginSourceFile self1 (emptySourceFile "good")) :=
  ⟨_, rfl, rfl, rfl, rfl⟩

/-! ### Parameters of a new function -/

/-- The second loop of `genFunctionSignature` leaves the entry of a name that
is not the name of a parameter. -/
theorem bindParams_get_other (func : LLVMValueRef) (n : String) (ps : List ParameterSection) :
    ∀ (self : LLVMCodeGenerator) (i : Nat), (∀ p ∈ ps, p.name ≠ n) →
      hashmap_get (bindParams self func i ps).namedValues n = hashmap_get self.namedValues n := by
  induction ps with
  | nil => intro self i _; rfl
  | cons q rest ih =>
    intro self i hne
    simp only [bindParams]
    rw [ih _ _ (fun p hp => hne p (List.mem_cons_of_mem q hp))]
    simp only [hashmap_get_put, LLVMCodeGenerator.setModule]
    rw [if_neg (fun h => hne q (List.mem_cons_self q rest) h.symm)]

/-- With pairwise distinct parameter names, the second loop of
`genFunctionSignature` binds the name of the `j`-th parameter of the list to the
parameter `i + j` of the function. -/
theorem bindParams_get (func : LLVMValueRef) (ps : List ParameterSection) :
    ∀ (self : LLVMCodeGenerator) (i j : Nat) (p : ParameterSection),
      (ps.map (fun q => q.name)).Nodup → ps[j]? = some p →
      hashmap_get (bindParams self func i ps).namedValues p.name =
        some { name := p.name, value := LLVMGetParam func (i + j) } := by
  induction ps with
  | nil => intro self i j p _ hj; simp at hj
  | cons q rest ih =>
    intro self i j p hnd hj
    simp only [List.map_cons, List.nodup_cons, List.mem_map, not_exists, not_and] at hnd
    simp only [bindParams]
    cases j with
    | zero =>
      simp only [List.getElem?_cons_zero, Option.some.injEq] at hj
      subst hj
      rw [bindParams_get_other func q.name rest _ _ (fun p hp h => hnd.1 p hp h)]
      simp [hashmap_get_put, createVariableRef]
    | succ j =>
      simp only [List.getElem?_cons_succ] at hj
      rw [ih _ (i + 1) j p hnd.2 hj]
      simp [Nat.add_assoc, Nat.add_comm 1 j]

/-- The run of `genFunctionSignature` for a function that is not in the module:
the function is added, and the second loop runs from a state with the named
values of the state before. -/
theorem genFunctionSignature_new_run (env : Env) (self : LLVMCodeGenerator)
    (signature : FunctionSignature) (body : List Statement) (isPrototype : Bool)
    (returnType : TypeName)
    (hnew : self.module.functions.find? (fun f => f.name == signature.name) = none)
    (hparams : ∀ p ∈ signature.paramList, (paramTypeSpec env p.type).isSome = true)
    (hret : signature.type = .typeNameNode returnType) :
    ∃ self0, genFunctionSignature env self (.mk signature body isPrototype) =
        .ok (some (.function signature.name),
          bindParams self0 (some (.function signature.name)) 0 signature.paramList) ∧
      self0.namedValues = self.namedValues := by
  obtain ⟨tys, msgs, hrun, _⟩ := genParamTypes_spec env signature.paramList hparams
  have hfunc : LLVMGetNamedFunction self.module signature.name = none := by
    simp [LLVMGetNamedFunction, hnew]
  simp only [genFunctionSignature, FunctionDecl.signature, hfunc, hrun, hret,
    Option.isSome_none, Bool.false_eq_true, if_false, LLVMAddFunction]
  split
  · exact ⟨_, rfl, rfl⟩
  · exact ⟨_, rfl, rfl⟩

/-- For a function that is not in the module, with pairwise distinct parameter
names, `genFunctionSignature` returns, and afterwards a lookup of the name of
the `j`-th parameter gives the `j`-th parameter of the function. -/
theorem genFunctionSignature_new_binds (env : Env) (self : LLVMCodeGenerator)
    (signature : FunctionSignature) (body : List Statement) (isPrototype : Bool)
    (returnType : TypeName)
    (hnew : self.module.functions.find? (fun f => f.name == signature.name) = none)
    (hparams : ∀ p ∈ signature.paramList, (paramTypeSpec env p.type).isSome = true)
    (hret : signature.type = .typeNameNode returnType)
    (hdistinct : (signature.paramList.map (fun q => q.name)).Nodup) :
    ∃ self1, genFunctionSignature env self (.mk signature body isPrototype) =
        .ok (some (.function signature.name), self1) ∧
      ∀ (j : Nat) (p : ParameterSection), signature.paramList[j]? = some p →
        hashmap_get self1.namedValues p.name =
          some { name := p.name, value := some (.param signature.name j) } := by
  obtain ⟨self0, hrun, _⟩ :=
    genFunctionSignature_new_run env self signature body isPrototype returnType hnew hparams hret
  refine ⟨_, hrun, fun j p hj => ?_⟩
  rw [bindParams_get _ _ self0 0 j p hdistinct hj]
  simp [LLVMGetParam]

/-! ### The build pipeline -/

theorem String.join_cons (x : String) (xs : List String) :
    String.join (x :: xs) = x ++ String.join xs := by
  apply String.ext
  simp [String.join_eq]

/-- The first loop of `createBinary` adds the names in the order of the list. -/
theorem appendAsmFiles_eq (fs : List String) :
    ∀ cmd : String, appendAsmFiles cmd fs = cmd ++ String.join (fs.map (fun f => f ++ " ")) := by
  induction fs with
  | nil => intro cmd; simp [appendAsmFiles, String.join]
  | cons f rest ih =>
    intro cmd
    simp only [appendAsmFiles, ih, List.map_cons, String.join_cons, String.append_assoc]

theorem linkCommand_eq_spec (host : Host) (asmFiles : List String) :
    linkCommand host asmFiles = linkCommandSpec host asmFiles := by
  simp only [linkCommand, linkCommandSpec, appendAsmFiles_eq, String.append_assoc,
    String.empty_append]

/-- The second loop of `createBinary` asks for the removal of each file, in the
order of the list, and keeps the list. -/
theorem removeAsmFiles_events (host : Host) (fs : List String) :
    ∀ (self : LLVMCodeGenerator) (events : List Event),
      (removeAsmFiles host self events fs).2 = events ++ fs.map Event.remove ∧
        (removeAsmFiles host self events fs).1.asmFiles = self.asmFiles ∧
        ((∀ evs f, host.remove evs f = false) →
          (removeAsmFiles host self events fs).1 = self) := by
  induction fs with
  | nil => intro self events; simp [removeAsmFiles]
  | cons f rest ih =>
    intro self events
    simp only [removeAsmFiles]
    obtain ⟨h1, h2, h3⟩ := ih
      (if host.remove events f = true then
        genError self ("Couldn't remove assembly file " ++ f) else self)
      (events ++ [Event.remove f])
    refine ⟨by simp [h1], ?_, ?_⟩
    · rw [h2]; split <;> rfl
    · intro hall
      rw [h3 hall]
      simp [hall]

/-- C17, as it is stated, fails: the linker is started and exits with the
status 1; `createBinary` still asks for the removal of both assembly files, and
writes no error message. -/
theorem createBinary_failed_link_removes :
    failingLinkHost.popen [] (linkCommand failingLinkHost linkGenerator.asmFiles) = some 1 ∧
      createBinary failingLinkHost linkGenerator [] =
        .ok (linkGenerator,
          [.popen "cc a.s b.s  -o main", .pclose, .remove "a.s", .remove "b.s"]) ∧
      linkGenerator.errors = [] :=
  ⟨rfl, rfl, rfl⟩

/-- C17, amended: when the linker process is started, whatever its exit status
is, `createBinary` returns after these requests and no other: the linker is
started once, with the command that names the assembly files in the order of
the list, the stream is closed, and the removal of every assembly file of the
list is asked for, in order; when every removal is done no error message is
written. -/
theorem createBinary_links_once_and_removes (host : Host) (self : LLVMCodeGenerator)
    (events : List Event) (status : Int)
    (hspawn : host.popen events (linkCommand host self.asmFiles) = some status) :
    ∃ self1, createBinary host self events =
        .ok (self1, events ++
          [.popen (linkCommandSpec host self.asmFiles), .pclose] ++
          self.asmFiles.map Event.remove) ∧
      self1.asmFiles = self.asmFiles ∧
      ((∀ evs f, host.remove evs f = false) → self1 = self) := by
  obtain ⟨h1, h2, h3⟩ := removeAsmFiles_events host self.asmFiles self
    (events ++ [.popen (linkCommand host self.asmFiles), .pclose])
  refine ⟨_, ?_, h2, h3⟩
  simp only [createBinary, hspawn]
  rw [← linkCommand_eq_spec, ← h1]

/-- C17 at two assembly files and a linker that exits with the status 1. -/
theorem createBinary_links_once_and_removes_witness :
    ∃ self1, createBinary failingLinkHost linkGenerator [] =
        .ok (self1, [] ++
          [.popen (linkCommandSpec failingLinkHost linkGenerator.asmFiles), .pclose] ++
          linkGenerator.asmFiles.map Event.remove) ∧
      self1.asmFiles = linkGenerator.asmFiles ∧
      ((∀ evs f, failingLinkHost.remove evs f = false) → self1 = linkGenerator) :=
  createBinary_links_once_and_removes failingLinkHost linkGenerator [] 1 (by rfl)

/-- C16, as it is stated, fails: in the session over the units `bad` and `good`,
the module of `bad` does not verify and no bitcode is written for it, yet the
assembler is started for `bad.bc`, and `bad.bc.s` is in the link command. -/
theorem startLLVMCodeGeneration_unverified_unit_assembled :
    exampleHost.LLVMVerifyModule (LLVMModuleCreateWithName "bad") = some "module is broken" ∧
      (startLLVMCodeGeneration exampleEnv exampleHost twoUnitGenerator []).map (fun r => r.2) =
        .ok [.verifyModule (LLVMModuleCreateWithName "bad"),
             .popen "llc bad.bc -o bad.bc.s", .pclose, .remove "bad.bc",
             .verifyModule (LLVMModuleCreateWithName "good"),
             .writeBitcode (LLVMModuleCreateWithName "good") "good.bc",
             .popen "llc good.bc -o good.bc.s", .pclose, .remove "good.bc",
             .popen "cc bad.bc.s good.bc.s  -o main", .pclose,
             .remove "bad.bc.s", .remove "good.bc.s"] ∧
      (startLLVMCodeGeneration exampleEnv exampleHost twoUnitGenerator []).map
          (fun r => r.1.asmFiles) = .ok ["bad.bc.s", "good.bc.s"] :=
  ⟨rfl, rfl, rfl⟩

theorem llcCommand_eq_spec (name : String) :
    "" ++ "llc " ++ ("" ++ name ++ ".bc") ++ " -o " ++ ("" ++ ("" ++ name ++ ".bc") ++ ".s") =
      llcCommandSpec name := by
  have h1 : ".bc" ++ ".s" = ".bc.s" := rfl
  have h2 : ∀ x : String, ".bc" ++ (" -o " ++ x) = ".bc -o " ++ x := fun x => by
    rw [← String.append_assoc]; rfl
  simp only [llcCommandSpec, String.empty_append, String.append_assoc, h1, h2]

theorem asmFileName_eq (name : String) :
    "" ++ ("" ++ name ++ ".bc") ++ ".s" = asmFileName name := by
  have h1 : ".bc" ++ ".s" = ".bc.s" := rfl
  simp only [asmFileName, String.empty_append, String.append_assoc, h1]

/-- The run of `createBitcode`: its requests are the verification and, when
the verification passed, the write; the source file and the link list are
kept. -/
theorem createBitcode_run (host : Host) (self : LLVMCodeGenerator) (events : List Event) :
    (createBitcode host self events).1 = bitcodeFileName self.currentSourceFile.name ∧
      (createBitcode host self events).2.2 = events ++ bitcodeEvents host self ∧
      (createBitcode host self events).2.1.asmFiles = self.asmFiles ∧
      (createBitcode host self events).2.1.currentSourceFile = self.currentSourceFile ∧
      (createBitcode host self events).2.1.namedValues = self.namedValues := by
  unfold createBitcode bitcodeEvents bitcodeFileName
  cases host.LLVMVerifyModule self.module with
  | some error => simp [genError, errorMessage]
  | none =>
    simp only [String.empty_append]
    split <;> simp [genError, errorMessage]

/-- The run of `convertBitcodeToAsm` when the assembler process is started. -/
theorem convertBitcodeToAsm_run (host : Host) (self : LLVMCodeGenerator)
    (events : List Event) (name : String) (status : Int)
    (hspawn : host.popen events (llcCommandSpec name) = some status) :
    ∃ self1, convertBitcodeToAsm host self events ("" ++ name ++ ".bc") =
        .ok (self1, events ++
          [.popen (llcCommandSpec name), .pclose, .remove (bitcodeFileName name)]) ∧
      self1.asmFiles = self.asmFiles ++ [asmFileName name] ∧
      self1.currentSourceFile = self.currentSourceFile ∧
      self1.namedValues = self.namedValues := by
  unfold convertBitcodeToAsm
  simp only [llcCommand_eq_spec]
  simp only [asmFileName_eq, hspawn]
  generalize hs : (if host.remove (events ++ [Event.popen (llcCommandSpec name), Event.pclose])
      ("" ++ name ++ ".bc") = true then
      genError self ("Couldn't remove bitcode file " ++ ("" ++ name ++ ".bc")) else self) = s1
  have hs1 : s1.asmFiles = self.asmFiles ∧ s1.currentSourceFile = self.currentSourceFile ∧
      s1.namedValues = self.namedValues := by
    rw [← hs]; split <;> exact ⟨rfl, rfl, rfl⟩
  exact ⟨{ s1 with asmFiles := s1.asmFiles ++ [asmFileName name] },
    by simp [bitcodeFileName], by simp [hs1.1], hs1.2.1, hs1.2.2⟩

/-- For every unit, whether the verification of its module fails or not, when
the assembler process is started the last stages of the unit
return after these requests and no other: the verification, the write of the
bitcode file exactly when the verification passed, the start of the assembler
on the bitcode file, the close of its stream and the removal of the bitcode
file; and the name of the assembly file of the unit is added at the end of the
link list. -/
theorem emitSourceFile_stages (host : Host) (self : LLVMCodeGenerator)
    (events : List Event) (status : Int)
    (hspawn : host.popen (events ++ bitcodeEvents host self)
      (llcCommandSpec self.currentSourceFile.name) = some status) :
    ∃ self1, emitSourceFile host self events =
        .ok (self1, events ++ bitcodeEvents host self ++
          [.popen (llcCommandSpec self.currentSourceFile.name), .pclose,
           .remove (bitcodeFileName self.currentSourceFile.name)]) ∧
      self1.asmFiles = self.asmFiles ++ [asmFileName self.currentSourceFile.name] ∧
      self1.currentSourceFile = self.currentSourceFile := by
  obtain ⟨hname, hevents, hasm, hsf, _⟩ := createBitcode_run host self events
  have hname2 : (createBitcode host self events).1 =
      "" ++ self.currentSourceFile.name ++ ".bc" := by
    rw [hname]; simp [bitcodeFileName]
  obtain ⟨self1, hrun, h1, h2, _⟩ := convertBitcodeToAsm_run host
    (createBitcode host self events).2.1 (events ++ bitcodeEvents host self)
    self.currentSourceFile.name status hspawn
  refine ⟨self1, ?_, by rw [h1, hasm], by rw [h2, hsf]⟩
  simp only [emitSourceFile, hevents, hname2]
  exact hrun

/-- The last stages of the unit `bad`, whose module does not verify. -/
theorem emitSourceFile_stages_witness :
    ∃ self1, emitSourceFile exampleHost
        (beginSourceFile twoUnitGenerator (emptySourceFile "bad")) [] =
        .ok (self1, [] ++
          bitcodeEvents exampleHost (beginSourceFile twoUnitGenerator (emptySourceFile "bad")) ++
          [.popen (llcCommandSpec
              (beginSourceFile twoUnitGenerator (emptySourceFile "bad")).currentSourceFile.name),
           .pclose,
           .remove (bitcodeFileName
              (beginSourceFile twoUnitGenerator (emptySourceFile "bad")).currentSourceFile.name)]) ∧
      self1.asmFiles =
        (beginSourceFile twoUnitGenerator (emptySourceFile "bad")).asmFiles ++
          [asmFileName
            (beginSourceFile twoUnitGenerator (emptySourceFile "bad")).currentSourceFile.name] ∧
      self1.currentSourceFile =
        (beginSourceFile twoUnitGenerator (emptySourceFile "bad")).currentSourceFile :=
  emitSourceFile_stages exampleHost (beginSourceFile twoUnitGenerator (emptySourceFile "bad"))
    [] 0 (by rfl)

/-- C19 fails on the code: in `h() : int` with the body `return g()`, where `g`
is not declared, the expression lowers to NULL and `genLeaveStatNode` passes
that NULL to `LLVMBuildRet`: the instruction built is the return without an
operand, the one built for the body `return` without an expression. -/
theorem genLeaveStatNode_null_expression :
    genExpression exampleEnv startGenerator (callExpr "g" []) =
        .ok (none, genError startGenerator "Function not found in module") ∧
      (∃ self1, genFunctionDecl exampleEnv startGenerator returnUndeclaredDecl =
          .ok (some (.function "h"), self1) ∧
        self1.builder.built = [(some { fn := "h", index := 0 }, .ret none)] ∧
        self1.errors = ["LLVM codegen: Function not found in module"]) ∧
      (∃ self2, genFunctionDecl exampleEnv startGenerator bareReturnDecl =
          .ok (some (.function "h"), self2) ∧
        self2.builder.built = [(some { fn := "h", index := 0 }, .ret none)]) :=
  ⟨rfl, ⟨_, rfl, rfl, rfl⟩, ⟨_, rfl, rfl⟩⟩

/-! ### What no lowering function writes -/

theorem genTypeName_outside (env : Env) (s : LLVMCodeGenerator) (name : TypeName)
    (v : LLVMValueRef) (t : LLVMCodeGenerator) (h : genTypeName env s name = .ok (v, t)) :
    t.outside = s.outside := by
  unfold genTypeName at h
  split at h
  · split at h <;> cases h <;> rfl
  · cases h; rfl

theorem genType_outside (env : Env) (s : LLVMCodeGenerator) (type : AstType)
    (v : LLVMValueRef) (t : LLVMCodeGenerator) (h : genType env s type = .ok (v, t)) :
    t.outside = s.outside := by
  unfold genType at h
  split at h
  · exact genTypeName_outside env s _ v t h
  · unfold genTypeLit at h; cases h; rfl
  · cases h; rfl

theorem genLiteral_outside (env : Env) (s : LLVMCodeGenerator) (lit : Literal)
    (v : LLVMValueRef) (t : LLVMCodeGenerator) (h : genLiteral env s lit = .ok (v, t)) :
    t.outside = s.outside := by
  unfold genLiteral at h
  split at h
  · split at h <;> cases h; rfl
  · split at h <;> cases h; rfl
  · split at h <;> cases h; rfl
  · cases h; rfl

theorem buildBinaryOp_outside (env : Env) (s : LLVMCodeGenerator) (op : String) (fl : Bool)
    (lhs rhs v : LLVMValueRef) (t : LLVMCodeGenerator)
    (h : buildBinaryOp env s op fl lhs rhs = .ok (v, t)) : t.outside = s.outside := by
  unfold buildBinaryOp at h
  split at h
  · cases h; rfl
  split at h
  · cases h; rfl
  split at h
  · cases h; rfl
  split at h
  · cases h; rfl
  · cases h; rfl

mutual
theorem genExpression_outside (env : Env) (s : LLVMCodeGenerator) :
    (e : Expression) → ∀ v t, genExpression env s e = .ok (v, t) → t.outside = s.outside
  | .typeNode type, v, t, h => by
    rw [genExpression] at h
    exact genType_outside env s type v t h
  | .literalNode lit, v, t, h => by
    rw [genExpression] at h
    exact genLiteral_outside env s lit v t h
  | .binaryExprNode binary, v, t, h => by
    rw [genExpression] at h
    exact genBinaryExpression_outside env s binary v t h
  | .unaryExprNode, v, t, h => by
    rw [genExpression] at h
    cases h; rfl
  | .functionCallNode call, v, t, h => by
    rw [genExpression] at h
    exact genFunctionCall_outside env s call v t h
  | .arrayInitializerNode, v, t, h => by
    rw [genExpression] at h
    cases h; rfl
  | .arrayIndexNode, v, t, h => by
    rw [genExpression] at h
    cases h; rfl
  | .allocNode, v, t, h => by
    rw [genExpression] at h
    cases h; rfl
  | .sizeofNode, v, t, h => by
    rw [genExpression] at h
    cases h; rfl
  | .unknownNode _, v, t, h => by
    rw [genExpression] at h
    cases h; rfl
theorem genBinaryExpression_outside (env : Env) (s : LLVMCodeGenerator) :
    (b : BinaryExpr) → ∀ v t, genBinaryExpression env s b = .ok (v, t) → t.outside = s.outside
  | .mk lhand op rhand, v, t, h => by
    rw [genBinaryExpression] at h
    cases h1 : genExpression env s lhand with
    | error e => simp [h1] at h
    | ok r1 =>
      obtain ⟨lhs, s1⟩ := r1
      have e1 := genExpression_outside env s lhand lhs s1 h1
      simp only [h1] at h
      cases h2 : genExpression env s1 lhand with
      | error e => simp [h2] at h
      | ok r2 =>
        obtain ⟨rhs, s2⟩ := r2
        have e2 := genExpression_outside env s1 lhand rhs s2 h2
        simp only [h2] at h
        have e3 := buildBinaryOp_outside env _ op false lhs rhs v t h
        rw [e3, ← e1, ← e2]
        split <;> rfl
theorem genFunctionCall_outside (env : Env) (s : LLVMCodeGenerator) :
    (c : Call) → ∀ v t, genFunctionCall env s c = .ok (v, t) → t.outside = s.outside
  | .mk callee arguments, v, t, h => by
    cases callee with
    | nil => simp [genFunctionCall] at h
    | cons funcName rest =>
      simp only [genFunctionCall] at h
      split at h
      · cases h; rfl
      split at h
      · cases h; rfl
      cases h1 : genArguments env s funcName arguments with
      | error e => simp [h1] at h
      | ok r1 =>
        obtain ⟨args, s1⟩ := r1
        have e1 := genArguments_outside env s funcName arguments args s1 h1
        simp only [h1] at h
        cases args with
        | none => cases h; exact e1
        | some args =>
          simp only [buildFunctionCall] at h
          cases h
          exact e1
theorem genArguments_outside (env : Env) (s : LLVMCodeGenerator) (funcName : String) :
    (es : List Expression) → ∀ v t,
      genArguments env s funcName es = .ok (v, t) → t.outside = s.outside
  | [], v, t, h => by
    simp only [genArguments] at h
    cases h; rfl
  | e :: es, v, t, h => by
    rw [genArguments] at h
    cases h1 : genExpression env s e with
    | error e => simp [h1] at h
    | ok r1 =>
      obtain ⟨arg, s1⟩ := r1
      have e1 := genExpression_outside env s e arg s1 h1
      simp only [h1] at h
      split at h
      · cases h; exact e1
      cases h2 : genArguments env s1 funcName es with
      | error e => simp [h2] at h
      | ok r2 =>
        obtain ⟨args, s2⟩ := r2
        have e2 := genArguments_outside env s1 funcName es args s2 h2
        simp only [h2] at h
        cases args with
        | none => cases h; exact e2.trans e1
        | some args => cases h; exact e2.trans e1
end

theorem advances_refl (s : LLVMCodeGenerator) : Advances s s :=
  ⟨rfl, le_refl _⟩

theorem advances_trans {s t u : LLVMCodeGenerator} (h1 : Advances s t) (h2 : Advances t u) :
    Advances s u :=
  ⟨h2.1.trans h1.1, le_trans h1.2 h2.2⟩

theorem advances_of_eq {s t : LLVMCodeGenerator} (h1 : t.outside = s.outside)
    (h2 : t.currentSourceFile.scope = s.currentSourceFile.scope) : Advances s t :=
  ⟨h1, le_of_eq h2.symm⟩

/-- The second loop of `genFunctionSignature` writes neither the scope nor what
is outside the lowering. -/
theorem bindParams_frame (func : LLVMValueRef) (ps : List ParameterSection) :
    ∀ (self : LLVMCodeGenerator) (i : Nat),
      (bindParams self func i ps).outside = self.outside ∧
        (bindParams self func i ps).currentSourceFile.scope = self.currentSourceFile.scope := by
  induction ps with
  | nil => intro self i; exact ⟨rfl, rfl⟩
  | cons q rest ih =>
    intro self i
    simp only [bindParams]
    obtain ⟨h1, h2⟩ := ih
      { self.setModule (LLVMSetValueName self.module (LLVMGetParam func i) q.name) with
        namedValues := hashmap_put
          (self.setModule (LLVMSetValueName self.module (LLVMGetParam func i) q.name)).namedValues
          q.name { createVariableRef q.name with value := LLVMGetParam func i } } (i + 1)
    exact ⟨h1.trans rfl, h2.trans rfl⟩

theorem genFunctionSignature_frame (env : Env) (self self1 : LLVMCodeGenerator)
    (decl : FunctionDecl) (r : LLVMValueRef)
    (h : genFunctionSignature env self decl = .ok (r, self1)) :
    self1.outside = self.outside ∧
      self1.currentSourceFile.scope = self.currentSourceFile.scope := by
  unfold genFunctionSignature at h
  simp only at h
  split at h
  · split at h <;> cases h <;> exact ⟨rfl, rfl⟩
  · cases hp : genParamTypes env decl.signature.paramList with
    | error e => simp [hp] at h
    | ok r1 =>
      obtain ⟨params, msgs⟩ := r1
      simp only [hp] at h
      split at h
      · cases h
        rename_i typeName _
        have hb := bindParams_frame
          (LLVMAddFunction ((self.report msgs).report
              (getLLVMType env (env.getTypeFromString typeName.name)).2).module
            decl.signature.name
            (LLVMFunctionType (getLLVMType env (env.getTypeFromString typeName.name)).1
              params false)).1
          decl.signature.paramList
        split
        · exact ⟨(hb _ 0).1.trans rfl, (hb _ 0).2.trans rfl⟩
        · exact ⟨(hb _ 0).1.trans rfl, (hb _ 0).2.trans rfl⟩
      · cases h

theorem genVariableDecl_frame (env : Env) (self self1 : LLVMCodeGenerator)
    (decl : VariableDecl) (r : LLVMValueRef)
    (h : genVariableDecl env self decl = .ok (r, self1)) :
    self1.outside = self.outside ∧
      self1.currentSourceFile.scope = self.currentSourceFile.scope := by
  unfold genVariableDecl at h
  simp only at h
  split at h
  · split at h
    · cases h
    · rename_i init _
      cases h1 : genExpression env self init with
      | error e => simp [h1] at h
      | ok r1 =>
        obtain ⟨expr, s1⟩ := r1
        have o1 := genExpression_outside env self init expr s1 h1
        have c1 := (genExpression_extends env self init expr s1 h1).scope
        simp only [h1] at h
        split at h
        · obtain ⟨type, msgs, htype⟩ := genType_report env s1 decl.type
          simp only [htype] at h
          cases h
          exact ⟨Eq.trans rfl o1, Eq.trans rfl c1⟩
        · cases h
          exact ⟨Eq.trans rfl o1, Eq.trans rfl c1⟩
  · obtain ⟨type, msgs, htype⟩ := genType_report env self decl.type
    simp only [htype] at h
    split at h
    · cases h
      exact ⟨rfl, rfl⟩
    · rename_i init _
      split at h
      · cases h
      · rename_i value s4 h4
        cases h
        have o4 := genExpression_outside env _ init value s4 h4
        have c4 := (genExpression_extends env _ init value s4 h4).scope
        exact ⟨Eq.trans rfl o4, Eq.trans rfl c4⟩

theorem genLeaveStatNode_frame (env : Env) (self self1 : LLVMCodeGenerator)
    (leave : LeaveStat) (r : LLVMValueRef)
    (h : genLeaveStatNode env self leave = .ok (r, self1)) :
    self1.outside = self.outside ∧
      self1.currentSourceFile.scope = self.currentSourceFile.scope := by
  unfold genLeaveStatNode at h
  split at h
  · cases h; exact ⟨rfl, rfl⟩
  · rename_i e
    cases h1 : genExpression env self e with
    | error err => simp [h1] at h
    | ok r1 =>
      obtain ⟨expr, s1⟩ := r1
      simp only [h1] at h
      cases h
      exact ⟨Eq.trans rfl (genExpression_outside env self e expr s1 h1),
        Eq.trans rfl (genExpression_extends env self e expr s1 h1).scope⟩
  · cases h; exact ⟨rfl, rfl⟩

/-! The lowering of a statement writes nothing outside the lowering, and never
leaves the scope below the scope it found. -/

mutual
theorem genStatement_advances (env : Env) (s : LLVMCodeGenerator) :
    (stmt : Statement) → ∀ r t, genStatement env s stmt = .ok (r, t) → Advances s t
  | .unstructuredStatementNode u, r, t, h => by
    rw [genStatement] at h
    exact genUnstructuredStatementNode_advances env s u r t h
  | .structuredStatementNode _, r, t, h => by
    rw [genStatement] at h
    cases h; exact advances_refl _
  | .macroNode, r, t, h => by
    rw [genStatement] at h
    cases h; exact advances_of_eq rfl rfl
  | .unknownNode, r, t, h => by
    rw [genStatement] at h
    cases h; exact advances_of_eq rfl rfl
theorem genUnstructuredStatementNode_advances (env : Env) (s : LLVMCodeGenerator) :
    (u : UnstructuredStatement) → ∀ r t,
      genUnstructuredStatementNode env s u = .ok (r, t) → Advances s t
  | .declarationNode decl, r, t, h => by
    rw [genUnstructuredStatementNode] at h
    exact genDeclaration_advances env s decl r t h
  | .exprStatNode expr, r, t, h => by
    rw [genUnstructuredStatementNode] at h
    exact advances_of_eq (genExpression_outside env s expr r t h)
      (genExpression_extends env s expr r t h).scope
  | .leaveStatNode leave, r, t, h => by
    rw [genUnstructuredStatementNode] at h
    exact advances_of_eq (genLeaveStatNode_frame env s t leave r h).1
      (genLeaveStatNode_frame env s t leave r h).2
  | .functionCallNode call, r, t, h => by
    rw [genUnstructuredStatementNode] at h
    exact advances_of_eq (genFunctionCall_outside env s call r t h)
      (genFunctionCall_extends env s call r t h).scope
  | .otherNode, r, t, h => by
    rw [genUnstructuredStatementNode] at h
    cases h; exact advances_refl _
theorem genDeclaration_advances (env : Env) (s : LLVMCodeGenerator) :
    (decl : Declaration) → ∀ r t, genDeclaration env s decl = .ok (r, t) → Advances s t
  | .functionDeclNode funcDecl, r, t, h => by
    rw [genDeclaration] at h
    exact genFunctionDecl_advances env s funcDecl r t h
  | .variableDeclNode varDecl, r, t, h => by
    rw [genDeclaration] at h
    exact advances_of_eq (genVariableDecl_frame env s t varDecl r h).1
      (genVariableDecl_frame env s t varDecl r h).2
  | .otherNode, r, t, h => by
    rw [genDeclaration] at h
    cases h; exact advances_refl _
theorem genFunctionDecl_advances (env : Env) (s : LLVMCodeGenerator) :
    (decl : FunctionDecl) → ∀ r t, genFunctionDecl env s decl = .ok (r, t) → Advances s t
  | .mk signature body isPrototype, r, t, h => by
    simp only [genFunctionDecl] at h
    cases h1 : genFunctionSignature env (s.setScope (s.currentSourceFile.scope + 1))
        (.mk signature body isPrototype) with
    | error e => simp [h1] at h
    | ok r1 =>
      obtain ⟨prototype, s2⟩ := r1
      obtain ⟨o2, c2⟩ := genFunctionSignature_frame env _ s2 _ prototype h1
      have c2' : s2.currentSourceFile.scope = s.currentSourceFile.scope + 1 := c2
      have o2' : s2.outside = s.outside := o2
      simp only [h1] at h
      split at h
      · cases h
        exact ⟨o2', by
          show s.currentSourceFile.scope ≤ s2.currentSourceFile.scope
          omega⟩
      split at h
      · cases h
        exact ⟨o2', by
          show s.currentSourceFile.scope ≤ s2.currentSourceFile.scope - 1
          omega⟩
      · cases h3 : genStatements env ((s2.setModule (LLVMAppendBasicBlock s2.module prototype
            "entry").2).setBuilder (LLVMPositionBuilderAtEnd s2.builder
              (LLVMAppendBasicBlock s2.module prototype "entry").1)) body with
        | error e => simp [h3] at h
        | ok s4 =>
          simp only [h3] at h
          cases h
          obtain ⟨o4, c4⟩ := genStatements_advances env _ body s4 h3
          have c4' : s2.currentSourceFile.scope ≤ s4.currentSourceFile.scope := c4
          have o4' : s4.outside = s2.outside := o4
          exact ⟨o4'.trans o2', by
            show s.currentSourceFile.scope ≤ s4.currentSourceFile.scope - 1
            omega⟩
theorem genStatements_advances (env : Env) (s : LLVMCodeGenerator) :
    (stmts : List Statement) → ∀ t, genStatements env s stmts = .ok t → Advances s t
  | [], t, h => by
    simp only [genStatements] at h
    cases h; exact advances_refl _
  | stmt :: rest, t, h => by
    simp only [genStatements] at h
    cases h1 : genStatement env s stmt with
    | error e => simp [h1] at h
    | ok r1 =>
      obtain ⟨r, s1⟩ := r1
      simp only [h1] at h
      exact advances_trans (genStatement_advances env s stmt r s1 h1)
        (genStatements_advances env s1 rest t h)
end

/-! ### Local variables stay bound -/

/-- At a scope that is not the global one, `genVariableDecl` binds the name of
the declaration. -/
theorem genVariableDecl_local_binds (env : Env) (self self1 : LLVMCodeGenerator)
    (decl : VariableDecl) (r : LLVMValueRef)
    (hscope : self.currentSourceFile.scope ≠ env.GLOBAL_SCOPE)
    (h : genVariableDecl env self decl = .ok (r, self1)) :
    (hashmap_get self1.namedValues decl.name).isSome = true := by
  unfold genVariableDecl at h
  simp only [if_neg hscope] at h
  obtain ⟨type, msgs, htype⟩ := genType_report env self decl.type
  simp only [htype] at h
  split at h
  · cases h
    simp [hashmap_get_put, LLVMCodeGenerator.setBuilder, LLVMCodeGenerator.report]
  · rename_i init _
    split at h
    · cases h
    · rename_i value s4 h4
      cases h
      have e4 := (genExpression_extends env _ init value s4 h4).namedValues
      show (hashmap_get s4.namedValues decl.name).isSome = true
      rw [e4]
      simp [hashmap_get_put, LLVMCodeGenerator.setBuilder, LLVMCodeGenerator.report]

/-- The loop over the statements of `pre ++ post` is the loop over `pre`
followed by the loop over `post`. -/
theorem genStatements_append (env : Env) (pre post : List Statement) :
    ∀ (s t : LLVMCodeGenerator), genStatements env s (pre ++ post) = .ok t →
      ∃ mid, genStatements env s pre = .ok mid ∧ genStatements env mid post = .ok t := by
  induction pre with
  | nil => intro s t h; exact ⟨s, by simp [genStatements], h⟩
  | cons stmt rest ih =>
    intro s t h
    simp only [List.cons_append, genStatements] at h
    cases h1 : genStatement env s stmt with
    | error e => simp [h1] at h
    | ok r1 =>
      obtain ⟨r, s1⟩ := r1
      simp only [h1] at h
      obtain ⟨mid, hpre, hpost⟩ := ih s1 t h
      exact ⟨mid, by simp only [genStatements, h1]; exact hpre, hpost⟩

/-- A variable declared among statements that are lowered above the global
scope is bound when the loop over the statements has returned. -/
theorem genStatements_local_bound (env : Env) (s t : LLVMCodeGenerator)
    (pre post : List Statement) (d : VariableDecl)
    (hscope : env.GLOBAL_SCOPE < s.currentSourceFile.scope)
    (h : genStatements env s (pre ++ variableStatement d :: post) = .ok t) :
    (hashmap_get t.namedValues d.name).isSome = true := by
  obtain ⟨mid, hpre, hpost⟩ := genStatements_append env pre _ s t h
  have hmid := (genStatements_advances env s pre mid hpre).2
  simp only [genStatements, variableStatement, genStatement, genUnstructuredStatementNode,
    genDeclaration] at hpost
  cases h1 : genVariableDecl env mid d with
  | error e => simp [h1] at hpost
  | ok r1 =>
    obtain ⟨r, s1⟩ := r1
    simp only [h1] at hpost
    have hb := genVariableDecl_local_binds env mid s1 d r (by omega) h1
    exact genStatements_bindings env s1 post t hpost d.name hb

/-- A variable declared in the body of a function is still bound when
`genFunctionDecl` has returned the function. -/
theorem genFunctionDecl_local_bound (env : Env) (self self1 : LLVMCodeGenerator)
    (signature : FunctionSignature) (pre post : List Statement) (d : VariableDecl)
    (r : LLVMValueRef)
    (hscope : env.GLOBAL_SCOPE ≤ self.currentSourceFile.scope)
    (h : genFunctionDecl env self (.mk signature (pre ++ variableStatement d :: post) false) =
      .ok (r, self1))
    (hr : r.isSome = true) :
    (hashmap_get self1.namedValues d.name).isSome = true := by
  simp only [genFunctionDecl] at h
  cases h1 : genFunctionSignature env (self.setScope (self.currentSourceFile.scope + 1))
      (.mk signature (pre ++ variableStatement d :: post) false) with
  | error e => simp [h1] at h
  | ok r1 =>
    obtain ⟨prototype, s2⟩ := r1
    have c2 : s2.currentSourceFile.scope = self.currentSourceFile.scope + 1 :=
      (genFunctionSignature_frame env _ s2 _ prototype h1).2
    simp only [h1] at h
    split at h
    · cases h; simp at hr
    simp only [Bool.false_eq_true, if_false] at h
    cases h3 : genStatements env ((s2.setModule (LLVMAppendBasicBlock s2.module prototype
        "entry").2).setBuilder (LLVMPositionBuilderAtEnd s2.builder
          (LLVMAppendBasicBlock s2.module prototype "entry").1))
        (pre ++ variableStatement d :: post) with
    | error e => simp [h3] at h
    | ok s4 =>
      simp only [h3] at h
      cases h
      exact genStatements_local_bound env _ s4 pre post d
        (by show env.GLOBAL_SCOPE < s2.currentSourceFile.scope; omega) h3

/-! ### The loop over the units -/

theorem stageEvents_eq (host : Host) (self : LLVMCodeGenerator) :
    stageEvents host self.module self.currentSourceFile.name =
      bitcodeEvents host self ++
        [.popen (llcCommandSpec self.currentSourceFile.name), .pclose,
         .remove (bitcodeFileName self.currentSourceFile.name)] := by
  unfold stageEvents bitcodeEvents
  cases host.LLVMVerifyModule self.module <;> rfl

/-- When `popen` gives NULL, `convertBitcodeToAsm` does not return. -/
theorem convertBitcodeToAsm_fault (host : Host) (self : LLVMCodeGenerator)
    (events : List Event) (name : String)
    (hspawn : host.popen events (llcCommandSpec name) = none) :
    convertBitcodeToAsm host self events ("" ++ name ++ ".bc") = .error .nullDereference := by
  unfold convertBitcodeToAsm
  simp only [llcCommand_eq_spec]
  simp only [hspawn]

/-- When the last stages of a unit return, their requests are those of
`stageEvents`, the name of the assembly file of the unit is added at the end of
the link list, and the source file and the named values are kept. -/
theorem emitSourceFile_ok (host : Host) (self t : LLVMCodeGenerator)
    (events ev : List Event) (h : emitSourceFile host self events = .ok (t, ev)) :
    ev = events ++ stageEvents host self.module self.currentSourceFile.name ∧
      t.asmFiles = self.asmFiles ++ [asmFileName self.currentSourceFile.name] ∧
      t.currentSourceFile = self.currentSourceFile ∧
      t.namedValues = self.namedValues := by
  obtain ⟨hname, hevents, hasm, hsf, hnv⟩ := createBitcode_run host self events
  have hname2 : (createBitcode host self events).1 =
      "" ++ self.currentSourceFile.name ++ ".bc" := by
    rw [hname]; simp [bitcodeFileName]
  simp only [emitSourceFile, hevents, hname2] at h
  cases hp : host.popen (events ++ bitcodeEvents host self)
      (llcCommandSpec self.currentSourceFile.name) with
  | none =>
    rw [convertBitcodeToAsm_fault host _ _ _ hp] at h
    cases h
  | some status =>
    obtain ⟨self1, hrun, h1, h2, h3⟩ := convertBitcodeToAsm_run host
      (createBitcode host self events).2.1 (events ++ bitcodeEvents host self)
      self.currentSourceFile.name status hp
    rw [hrun] at h
    simp only [Except.ok.injEq, Prod.mk.injEq] at h
    obtain ⟨rfl, rfl⟩ := h
    refine ⟨?_, by rw [h1, hasm], by rw [h2, hsf], by rw [h3, hnv]⟩
    rw [stageEvents_eq, List.append_assoc]

/-- When every process is started, the last stages of a unit return. -/
theorem emitSourceFile_returns (host : Host) (self : LLVMCodeGenerator) (events : List Event)
    (hspawn : ∀ evs cmd, (host.popen evs cmd).isSome = true) :
    ∃ t ev, emitSourceFile host self events = .ok (t, ev) := by
  cases hp : host.popen (events ++ bitcodeEvents host self)
      (llcCommandSpec self.currentSourceFile.name) with
  | none =>
    have := hspawn (events ++ bitcodeEvents host self)
      (llcCommandSpec self.currentSourceFile.name)
    simp [hp] at this
  | some status =>
    obtain ⟨self1, hrun, _⟩ := emitSourceFile_stages host self events status hp
    exact ⟨_, _, hrun⟩

theorem sessionEvents_cons (host : Host) (sf : SourceFile) (units : List SourceFile)
    (m : LLVMModule) (modules : List LLVMModule) :
    sessionEvents host (sf :: units) (m :: modules) =
      stageEvents host m sf.name ++ sessionEvents host units modules := by
  simp [sessionEvents]

/-- When the loop over the units returns, it has made the requests of the last
stages of every unit, one unit after the other, it has added the name of the
assembly file of every unit to the link list, in order, and it has kept every
binding. -/
theorem generateSourceFiles_trace (env : Env) (host : Host) (units : List SourceFile) :
    ∀ (self t : LLVMCodeGenerator) (events ev : List Event) (i : Nat),
      generateSourceFiles env host self events i units = .ok (t, ev) →
      (∃ modules, modules.length = units.length ∧
        ev = events ++ sessionEvents host units modules) ∧
      t.asmFiles = self.asmFiles ++ units.map (fun sf => asmFileName sf.name) ∧
      KeepsBindings self t := by
  induction units with
  | nil =>
    intro self t events ev i h
    simp only [generateSourceFiles, Except.ok.injEq, Prod.mk.injEq] at h
    obtain ⟨rfl, rfl⟩ := h
    exact ⟨⟨[], rfl, by simp [sessionEvents]⟩, by simp, keepsBindings_refl _⟩
  | cons sf rest ih =>
    intro self t events ev i h
    simp only [generateSourceFiles] at h
    cases h1 : traverseAST env (beginSourceFile self sf) with
    | error e => simp [h1] at h
    | ok s1 =>
      simp only [h1] at h
      cases h2 : emitSourceFile host s1 events with
      | error e => simp [h2] at h
      | ok r2 =>
        obtain ⟨s2, ev2⟩ := r2
        simp only [h2] at h
        obtain ⟨⟨modules, hlen, hev⟩, hasm, hkeep⟩ := ih _ t ev2 ev (i + 1) h
        have hadv := genStatements_advances env (beginSourceFile self sf) _ s1 h1
        have hout : s1.outside = (beginSourceFile self sf).outside := hadv.1
        have hname : s1.currentSourceFile.name = sf.name := congrArg (fun o => o.1) hout
        have hasm1 : s1.asmFiles = self.asmFiles := congrArg (fun o => o.2.1) hout
        have hk1 : KeepsBindings self s1 :=
          keepsBindings_trans (keepsBindings_of_eq rfl)
            (genStatements_bindings env (beginSourceFile self sf) _ s1 h1)
        obtain ⟨e1, e2, _, e4⟩ := emitSourceFile_ok host s1 s2 events ev2 h2
        refine ⟨⟨s1.module :: modules, by simp [hlen], ?_⟩, ?_, ?_⟩
        · rw [hev, e1, sessionEvents_cons, hname, List.append_assoc]
        · rw [hasm]
          show s2.asmFiles ++ _ = _
          rw [e2, hasm1, hname]
          simp
        · exact keepsBindings_trans hk1
            (keepsBindings_trans (keepsBindings_of_eq e4)
              (keepsBindings_trans (keepsBindings_of_eq rfl) hkeep))

/-- When every process is started and the lowering of no unit faults, the loop
over the units returns. -/
theorem generateSourceFiles_returns (env : Env) (host : Host) (units : List SourceFile)
    (hspawn : ∀ evs cmd, (host.popen evs cmd).isSome = true)
    (hlower : ∀ s, ∀ sf ∈ units, ∃ s1, traverseAST env (beginSourceFile s sf) = .ok s1) :
    ∀ (self : LLVMCodeGenerator) (events : List Event) (i : Nat),
      ∃ t ev, generateSourceFiles env host self events i units = .ok (t, ev) := by
  induction units with
  | nil => intro self events i; exact ⟨_, _, rfl⟩
  | cons sf rest ih =>
    intro self events i
    obtain ⟨s1, h1⟩ := hlower self sf (List.mem_cons_self sf rest)
    obtain ⟨s2, ev2, h2⟩ := emitSourceFile_returns host s1 events hspawn
    obtain ⟨t, ev, h3⟩ := ih (fun s sf hsf => hlower s sf (List.mem_cons_of_mem _ hsf))
      { s2 with sourceFiles := s2.sourceFiles.set i s2.currentSourceFile } ev2 (i + 1)
    exact ⟨t, ev, by simp only [generateSourceFiles, h1, h2]; exact h3⟩


/-- When `startLLVMCodeGeneration` returns, its requests are: for every unit,
in order, those of the last stages of the unit; then the start of the linker,
once, with the assembly files of all the units in order, the close of its
stream, and the removal of every assembly file. -/
theorem startLLVMCodeGeneration_trace (env : Env) (host : Host)
    (self t : LLVMCodeGenerator) (events ev : List Event)
    (h : startLLVMCodeGeneration env host self events = .ok (t, ev)) :
    ∃ modules, modules.length = self.sourceFiles.length ∧
      ev = events ++ sessionEvents host self.sourceFiles modules ++
        [.popen (linkCommandSpec host (self.sourceFiles.map (fun sf => asmFileName sf.name))),
         .pclose] ++
        (self.sourceFiles.map (fun sf => asmFileName sf.name)).map Event.remove := by
  simp only [startLLVMCodeGeneration] at h
  cases h1 : generateSourceFiles env host { self with asmFiles := [] } events 0
      self.sourceFiles with
  | error e => simp [h1] at h
  | ok r1 =>
    obtain ⟨t2, ev2⟩ := r1
    simp only [h1] at h
    obtain ⟨⟨modules, hlen, hev⟩, hasm, _⟩ :=
      generateSourceFiles_trace env host self.sourceFiles _ t2 events ev2 0 h1
    have hasm2 : t2.asmFiles = self.sourceFiles.map (fun sf => asmFileName sf.name) := by
      rw [hasm]; rfl
    refine ⟨modules, hlen, ?_⟩
    unfold createBinary at h
    cases hp : host.popen ev2 (linkCommand host t2.asmFiles) with
    | none => simp [hp] at h
    | some status =>
      simp only [hp, Except.ok.injEq] at h
      have hev3 := (removeAsmFiles_events host t2.asmFiles t2
        (ev2 ++ [.popen (linkCommand host t2.asmFiles), .pclose])).1
      rw [h] at hev3
      simp only at hev3
      rw [hev3, linkCommand_eq_spec, hasm2, hev]

/-- C16, amended: when every process is started and the lowering of no unit
faults, `startLLVMCodeGeneration` returns, and every unit is taken through the
same last stages whether the verification of its module, or of the module of
another unit, fails or not: for each unit in order the module is verified, the
bitcode file is written exactly when the verification passed, the assembler is
started on the bitcode file, its stream is closed and the removal of the
bitcode file is asked for; the linker is then started with the assembly files
of all the units. -/
theorem startLLVMCodeGeneration_stages (env : Env) (host : Host) (self : LLVMCodeGenerator)
    (events : List Event)
    (hspawn : ∀ evs cmd, (host.popen evs cmd).isSome = true)
    (hlower : ∀ s, ∀ sf ∈ self.sourceFiles,
      ∃ s1, traverseAST env (beginSourceFile s sf) = .ok s1) :
    ∃ t ev modules, startLLVMCodeGeneration env host self events = .ok (t, ev) ∧
      modules.length = self.sourceFiles.length ∧
      ev = events ++ sessionEvents host self.sourceFiles modules ++
        [.popen (linkCommandSpec host (self.sourceFiles.map (fun sf => asmFileName sf.name))),
         .pclose] ++
        (self.sourceFiles.map (fun sf => asmFileName sf.name)).map Event.remove := by
  obtain ⟨t2, ev2, h2⟩ := generateSourceFiles_returns env host self.sourceFiles hspawn hlower
    { self with asmFiles := [] } events 0
  have hrun : ∃ t ev, startLLVMCodeGeneration env host self events = .ok (t, ev) := by
    simp only [startLLVMCodeGeneration, h2, createBinary]
    cases hp : host.popen ev2 (linkCommand host t2.asmFiles) with
    | none =>
      have := hspawn ev2 (linkCommand host t2.asmFiles)
      simp [hp] at this
    | some status => exact ⟨_, _, rfl⟩
  obtain ⟨t, ev, h⟩ := hrun
  obtain ⟨modules, hlen, hev⟩ := startLLVMCodeGeneration_trace env host self t events ev h
  exact ⟨t, ev, modules, h, hlen, hev⟩

/-- C16 at the session over the units `bad` and `good`, where the module of
`bad` does not verify. -/
theorem startLLVMCodeGeneration_stages_witness :
    ∃ t ev modules, startLLVMCodeGeneration exampleEnv exampleHost twoUnitGenerator [] =
        .ok (t, ev) ∧
      modules.length = twoUnitGenerator.sourceFiles.length ∧
      ev = [] ++ sessionEvents exampleHost twoUnitGenerator.sourceFiles modules ++
        [.popen (linkCommandSpec exampleHost
            (twoUnitGenerator.sourceFiles.map (fun sf => asmFileName sf.name))),
         .pclose] ++
        (twoUnitGenerator.sourceFiles.map (fun sf => asmFileName sf.name)).map Event.remove :=
  startLLVMCodeGeneration_stages exampleEnv exampleHost twoUnitGenerator []
    (fun _ _ => rfl)
    (fun s sf hsf => by
      simp only [twoUnitGenerator, List.mem_cons, List.mem_singleton, List.not_mem_nil,
        or_false] at hsf
      rcases hsf with rfl | rfl <;> exact ⟨_, rfl⟩)

/-- C11, amended: when `genFunctionDecl` returns, every name that the symbol
table resolved before the call is still resolved; for a function that was not
in the module the name of every parameter is resolved; when the body was
lowered, at or above the global scope, the name of every variable declared in
the body is resolved; and every name resolved then is still resolved after
further statements of the unit, and after the loop over further units of the
session.  Bindings are never removed. -/
theorem genFunctionDecl_keeps_bindings (env : Env) (self self1 : LLVMCodeGenerator)
    (decl : FunctionDecl) (r : LLVMValueRef)
    (h : genFunctionDecl env self decl = .ok (r, self1)) :
    (∀ name, (hashmap_get self.namedValues name).isSome = true →
        (hashmap_get self1.namedValues name).isSome = true) ∧
      (LLVMGetNamedFunction self.module decl.signature.name = none →
        ∀ p ∈ decl.signature.paramList,
          (hashmap_get self1.namedValues p.name).isSome = true) ∧
      (env.GLOBAL_SCOPE ≤ self.currentSourceFile.scope → decl.prototype = false →
        r.isSome = true → ∀ pre d post, decl.body = pre ++ variableStatement d :: post →
          (hashmap_get self1.namedValues d.name).isSome = true) ∧
      (∀ stmts t, genStatements env self1 stmts = .ok t →
        ∀ name, (hashmap_get self1.namedValues name).isSome = true →
          (hashmap_get t.namedValues name).isSome = true) ∧
      (∀ host events i units t ev,
        generateSourceFiles env host self1 events i units = .ok (t, ev) →
        ∀ name, (hashmap_get self1.namedValues name).isSome = true →
          (hashmap_get t.namedValues name).isSome = true) := by
  refine ⟨genFunctionDecl_bindings env self decl r self1 h,
    genFunctionDecl_params_bound env self self1 decl r h, ?_,
    fun stmts t ht => genStatements_bindings env self1 stmts t ht,
    fun host events i units t ev ht =>
      (generateSourceFiles_trace env host units self1 t events ev i ht).2.2⟩
  intro hscope hproto hr pre d post hbody
  obtain ⟨signature, body, isPrototype⟩ := decl
  simp only [FunctionDecl.prototype] at hproto
  simp only [FunctionDecl.body] at hbody
  subst hproto hbody
  exact genFunctionDecl_local_bound env self self1 signature pre post d r hscope h hr

/-- C11 at the declaration `loc(a : int) : int` with the body
`y : int = 5; return a`, lowered at the start of the unit. -/
theorem genFunctionDecl_keeps_bindings_witness :
    ∃ self1, genFunctionDecl exampleEnv startGenerator localDecl =
        .ok (some (.function "loc"), self1) ∧
      ((∀ name, (hashmap_get startGenerator.namedValues name).isSome = true →
          (hashmap_get self1.namedValues name).isSome = true) ∧
        (LLVMGetNamedFunction startGenerator.module localDecl.signature.name = none →
          ∀ p ∈ localDecl.signature.paramList,
            (hashmap_get self1.namedValues p.name).isSome = true) ∧
        (exampleEnv.GLOBAL_SCOPE ≤ startGenerator.currentSourceFile.scope →
          localDecl.prototype = false → (some (LLVMValue.function "loc")).isSome = true →
          ∀ pre d post, localDecl.body = pre ++ variableStatement d :: post →
            (hashmap_get self1.namedValues d.name).isSome = true) ∧
        (∀ stmts t, genStatements exampleEnv self1 stmts = .ok t →
          ∀ name, (hashmap_get self1.namedValues name).isSome = true →
            (hashmap_get t.namedValues name).isSome = true) ∧
        (∀ host events i units t ev,
          generateSourceFiles exampleEnv host self1 events i units = .ok (t, ev) →
          ∀ name, (hashmap_get self1.namedValues name).isSome = true →
            (hashmap_get t.namedValues name).isSome = true)) :=
  ⟨_, rfl, genFunctionDecl_keeps_bindings exampleEnv startGenerator _ localDecl _ rfl⟩

/-- After `loc(a : int) : int` with the body `y : int = 5; return a` is lowered,
the local variable `y` is bound to its alloca. -/
theorem genFunctionDecl_local_still_bound :
    ∃ self1, genFunctionDecl exampleEnv startGenerator localDecl =
        .ok (some (.function "loc"), self1) ∧
      hashmap_get startGenerator.namedValues "y" = none ∧
      hashmap_get self1.namedValues "y" =
        some { name := "y", value := some (.instruction 0) } :=
  ⟨_, rfl, rfl, rfl⟩

end ArkCodegen
